import Mathlib

/-!
# Verification of the `vmctl` configuration and deployment orchestrator

A shallow embedding of the parts of `vmctl` that its specification makes
claims about:

* `VMConfig` with its field validators (`src/vmctl/config/models.py`),
* the bash-format serializer/parser pair `to_bash_format` / `from_bash_format`,
* the transport command-line builders of `VMManager`
  (`src/vmctl/core/vm.py`): `ssh`, `ssh_exec`, `scp`,
* the multi-app `setup` orchestrator and its helper steps
  (`src/vmctl/cli/commands/docker_commands.py`).

Python string primitives used by the parser (`splitlines`, `strip`,
`split`) are embedded as structurally recursive functions over `List Char`
mirroring CPython's documented behaviour.

The `ssh_host` / `ssh_user` / `ssh_key` / `ssh_port` fields of `VMConfig`
(together with their serializer/parser lines) are used throughout the
repository (`core/vm.py`, `config/manager.py`, the test-suite) but their
declaration is absent from the copy of `config/models.py` in the tree;
those definitions are modelled from the spec, as flagged in doc comments.
-/

namespace Vmctl

/-! ## Python string primitives over `List Char` -/

/-- Characters that `str.splitlines` treats as line boundaries. -/
def isLineBreak (c : Char) : Bool :=
  c = '\n' || c = '\r' || c = '\x0b' || c = '\x0c' ||
  c = '\x1c' || c = '\x1d' || c = '\x1e' || c = '\x85' ||
  c = '\u2028' || c = '\u2029'

/-- `str.splitlines`: split at line boundaries, treating `"\r\n"` as a
single boundary, with no trailing empty line. -/
def pySplitlines : List Char → List (List Char)
  | [] => []
  | '\r' :: '\n' :: cs => [] :: pySplitlines cs
  | c :: cs =>
    if isLineBreak c then
      [] :: pySplitlines cs
    else
      match pySplitlines cs with
      | [] => [[c]]
      | l :: ls => (c :: l) :: ls

/-- Whitespace characters stripped by `str.strip()`. -/
def pyIsSpace (c : Char) : Bool :=
  c = ' ' || c = '\t' || c = '\n' || c = '\r' || c = '\x0b' || c = '\x0c'

/-- `str.strip()`: remove whitespace from both ends. -/
def pyStrip (s : List Char) : List Char :=
  ((s.dropWhile pyIsSpace).reverse.dropWhile pyIsSpace).reverse

/-- `str.strip(q)` for a one-character set: remove `q` from both ends. -/
def pyStripChar (q : Char) (s : List Char) : List Char :=
  ((s.dropWhile (· = q)).reverse.dropWhile (· = q)).reverse

/-- `str.split(sep)` for a one-character separator (keeps empty pieces). -/
def splitOnChar (c : Char) : List Char → List (List Char)
  | [] => [[]]
  | x :: xs =>
    if x = c then [] :: splitOnChar c xs
    else
      match splitOnChar c xs with
      | [] => [[x]]
      | l :: ls => (x :: l) :: ls

/-- `str.split("=", 1)`: split at the first `'='`, when present. -/
def splitFirstEq : List Char → Option (List Char × List Char)
  | [] => none
  | c :: cs =>
    if c = '=' then some ([], cs)
    else
      match splitFirstEq cs with
      | none => none
      | some (k, v) => some (c :: k, v)

/-- `str.strip()` on a `String`. -/
def pyStripS (s : String) : String := String.mk (pyStrip s.data)

/-- `str.lower()` (ASCII case mapping, as structural recursion over the
characters). -/
def pyLower (s : String) : String := String.mk (s.data.map Char.toLower)

/-! ## Decimal rendering and parsing of naturals

`str(n)` for a non-negative `int`, and the digit-string acceptance of
`int(s)` (as used by the config parser for `SSH_PORT`). -/

/-- The decimal digit character for `d < 10`. -/
def digitChar (d : Nat) : Char := Char.ofNat (48 + d)

/-- `str(n)`: decimal digits of `n`, most significant first. -/
def natDigits (n : Nat) : List Char :=
  if _h : n < 10 then [digitChar n]
  else natDigits (n / 10) ++ [digitChar (n % 10)]
decreasing_by exact Nat.div_lt_self (by omega) (by omega)

/-- `str(n)` as a `String`. -/
def natDecimal (n : Nat) : String := String.mk (natDigits n)

/-- One step of decimal accumulation. -/
def digitStep (acc : Nat) (c : Char) : Nat := acc * 10 + (c.toNat - 48)

/-- Parse a non-empty all-digit string as a natural number; `none`
otherwise (the failure case of `int(s)` on such inputs). -/
def decToNat? (s : String) : Option Nat :=
  if s.data ≠ [] ∧ s.data.all Char.isDigit then
    some (s.data.foldl digitStep 0)
  else none

theorem digitChar_isDigit {d : Nat} (h : d < 10) : (digitChar d).isDigit = true := by
  interval_cases d <;> decide

theorem digitChar_toNat {d : Nat} (h : d < 10) : (digitChar d).toNat - 48 = d := by
  interval_cases d <;> decide

theorem natDigits_ne_nil (n : Nat) : natDigits n ≠ [] := by
  rw [natDigits]
  split <;> simp

theorem natDigits_all_digits (n : Nat) :
    (natDigits n).all Char.isDigit = true := by
  induction n using Nat.strong_induction_on with
  | _ n ih =>
    rw [natDigits]
    split
    · rename_i h
      simp [digitChar_isDigit h]
    · rename_i h
      rw [List.all_append]
      have h1 := ih (n / 10) (Nat.div_lt_self (by omega) (by omega))
      have h2 : (n % 10) < 10 := Nat.mod_lt _ (by omega)
      simp [h1, digitChar_isDigit h2]

theorem foldl_digitStep_append (a : Nat) (ds : List Char) (c : Char) :
    (ds ++ [c]).foldl digitStep a = 10 * ds.foldl digitStep a + (c.toNat - 48) := by
  rw [List.foldl_append]
  simp [digitStep, Nat.mul_comm]

/-- Rendering then accumulating the digits recovers the number. -/
theorem foldl_natDigits (n : Nat) : (natDigits n).foldl digitStep 0 = n := by
  induction n using Nat.strong_induction_on with
  | _ n ih =>
    rw [natDigits]
    split
    · rename_i h
      simp only [List.foldl_cons, List.foldl_nil, digitStep, Nat.zero_mul, Nat.zero_add]
      exact digitChar_toNat h
    · rename_i h
      rw [foldl_digitStep_append, ih (n / 10) (Nat.div_lt_self (by omega) (by omega)),
        digitChar_toNat (Nat.mod_lt _ (by omega))]
      omega

/-- `int(str(n)) == n`. -/
theorem decToNat_natDecimal (n : Nat) : decToNat? (natDecimal n) = some n := by
  rw [decToNat?, natDecimal]
  rw [if_pos ⟨natDigits_ne_nil n, natDigits_all_digits n⟩]
  rw [foldl_natDigits]

/-! ## `VMConfig` (`src/vmctl/config/models.py`)

Optional `str` fields are `Option String`; `None` is `none`.  The four
`ssh_*` fields are modelled from the spec ("optional direct-SSH override
(host, user, key path, port)"), since their declaration is missing from
the tree's copy of `models.py` while the rest of the code relies on them.
-/

structure VMConfig where
  vm_name : String := "dev-workstation"
  zone : String := "us-central1-a"
  project : Option String := none
  workstation_disk : Option String := none
  region : Option String := none
  app_dir : Option String := none
  /-- Modelled from the spec: direct-SSH hostname or IP. -/
  ssh_host : Option String := none
  /-- Modelled from the spec: SSH username for direct SSH. -/
  ssh_user : Option String := none
  /-- Modelled from the spec: path to SSH identity file. -/
  ssh_key : Option String := none
  /-- Modelled from the spec: SSH port. -/
  ssh_port : Option Nat := none
deriving DecidableEq, Repr

/-- `VMConfig.validate_vm_name`: GCP instance-name rules; returns the
lowercased name on success, the `ValueError` message on failure. -/
def validate_vm_name (v : String) : Except String String :=
  if v = "" then .error "VM name cannot be empty"
  else if !(v.get 0).isAlpha then .error "VM name must start with a letter"
  else if !(v.data.all fun c => c.isAlphanum || c = '-') then
    .error "VM name can only contain letters, numbers, and hyphens"
  else if v.length > 63 then .error "VM name cannot exceed 63 characters"
  else .ok (pyLower v)

/-- `VMConfig.validate_zone`: non-empty and at least three
hyphen-separated segments. -/
def validate_zone (v : String) : Except String String :=
  if v = "" then .error "Zone cannot be empty"
  else if (splitOnChar '-' v.data).length < 3 then
    .error "Invalid zone format (expected: region-zone-letter)"
  else .ok v

/-- A `VMConfig` obtainable from the validating constructor: both
validators accept the stored value unchanged. -/
def ValidConfig (c : VMConfig) : Prop :=
  validate_vm_name c.vm_name = .ok c.vm_name ∧
  validate_zone c.zone = .ok c.zone

instance {α β : Type} [DecidableEq α] [DecidableEq β] : DecidableEq (Except α β) := fun x y =>
  match x, y with
  | .ok a, .ok b => if h : a = b then .isTrue (by rw [h]) else .isFalse (by simp [h])
  | .error a, .error b => if h : a = b then .isTrue (by rw [h]) else .isFalse (by simp [h])
  | .ok _, .error _ => .isFalse (by simp)
  | .error _, .ok _ => .isFalse (by simp)

instance (c : VMConfig) : Decidable (ValidConfig c) := by
  unfold ValidConfig; infer_instance

/-- One `KEY="value"` line of the bash format. -/
def bashLine (key value : String) : String := key ++ "=\"" ++ value ++ "\""

/-- `self.field or ""` for an optional string field. -/
def orEmpty : Option String → String
  | some s => s
  | none => ""

/-- `f"{self.ssh_port or ''}"` for a set or unset port (modelled from the
spec; the serialized form of a set port is its decimal rendering). -/
def portValue : Option Nat → String
  | some p => natDecimal p
  | none => ""

/-- `VMConfig.to_bash_format`.  The first six lines mirror the source;
the four `SSH_*` lines are modelled from the spec's key list
(`ssh-host, ssh-user, ssh-key, ssh-port`) and the repository tests. -/
def to_bash_format (c : VMConfig) : String :=
  String.intercalate "\n" [
    bashLine "VM_NAME" c.vm_name,
    bashLine "ZONE" c.zone,
    bashLine "PROJECT" (orEmpty c.project),
    bashLine "WORKSTATION_DISK" (orEmpty c.workstation_disk),
    bashLine "REGION" (orEmpty c.region),
    bashLine "APP_DIR" (orEmpty c.app_dir),
    bashLine "SSH_HOST" (orEmpty c.ssh_host),
    bashLine "SSH_USER" (orEmpty c.ssh_user),
    bashLine "SSH_KEY" (orEmpty c.ssh_key),
    bashLine "SSH_PORT" (portValue c.ssh_port)
  ] ++ "\n"

/-- The local variables accumulated by the `from_bash_format` loop
(`None` until the corresponding key is seen). -/
structure BashAssigns where
  vm_name : Option String := none
  zone : Option String := none
  project : Option String := none
  workstation_disk : Option String := none
  region : Option String := none
  app_dir : Option String := none
  ssh_host : Option String := none
  ssh_user : Option String := none
  ssh_key : Option String := none
  ssh_port : Option String := none
deriving DecidableEq, Repr

/-- The `if key == ...` dispatch of the parse loop (the four `SSH_*`
branches are modelled from the spec's key list). -/
def assignKey (acc : BashAssigns) (key : String) (v : Option String) : BashAssigns :=
  if key = "VM_NAME" then { acc with vm_name := v }
  else if key = "ZONE" then { acc with zone := v }
  else if key = "PROJECT" then { acc with project := v }
  else if key = "WORKSTATION_DISK" then { acc with workstation_disk := v }
  else if key = "REGION" then { acc with region := v }
  else if key = "APP_DIR" then { acc with app_dir := v }
  else if key = "SSH_HOST" then { acc with ssh_host := v }
  else if key = "SSH_USER" then { acc with ssh_user := v }
  else if key = "SSH_KEY" then { acc with ssh_key := v }
  else if key = "SSH_PORT" then { acc with ssh_port := v }
  else acc

/-- The unquoted value of a parsed assignment, empty mapped to `None`:
`value.strip().strip('"').strip("'")` then `value if value else None`,
applied to the text between the serializer's quotes. -/
def strippedVal (v : String) : Option String :=
  let w := String.mk (pyStripChar '\'' (pyStripChar '"' v.data))
  if w = "" then none else some w

/-- One iteration of the `from_bash_format` line loop: strip, skip blank
and comment lines, split at the first `'='`, strip quotes, map the empty
string to `None`. -/
def parseLine (acc : BashAssigns) (rawLine : List Char) : BashAssigns :=
  let line := pyStrip rawLine
  if line = [] then acc
  else if line.head? = some '#' then acc
  else if line.contains '=' then
    match splitFirstEq line with
    | some (k, v) =>
      let key := String.mk (pyStrip k)
      let value := String.mk (pyStripChar '\'' (pyStripChar '"' (pyStrip v)))
      assignKey acc key (if value = "" then none else some value)
    | none => acc
  else acc

/-- `int` coercion applied to an assigned `SSH_PORT` value (modelled from
the spec; an unset port stays unset). -/
def parsePort : Option String → Except String (Option Nat)
  | none => .ok none
  | some s =>
    match decToNat? s with
    | some n => .ok (some n)
    | none => .error "invalid ssh_port"

/-- `VMConfig.from_bash_format`: run the line loop over `splitlines`,
then construct the config, which re-runs the field validators
(`pydantic` validation) and applies the declared defaults for keys never
seen.  `SSH_*` handling is modelled from the spec. -/
def from_bash_format (content : String) : Except String VMConfig :=
  let a := (pySplitlines content.data).foldl parseLine {}
  match validate_vm_name (a.vm_name.getD "dev-workstation") with
  | .error e => .error e
  | .ok vmn =>
    match validate_zone (a.zone.getD "us-central1-a") with
    | .error e => .error e
    | .ok zn =>
      match parsePort a.ssh_port with
      | .error e => .error e
      | .ok p =>
        .ok { vm_name := vmn, zone := zn, project := a.project,
              workstation_disk := a.workstation_disk, region := a.region,
              app_dir := a.app_dir, ssh_host := a.ssh_host,
              ssh_user := a.ssh_user, ssh_key := a.ssh_key, ssh_port := p }

/-- The `None`-normalisation performed by a serialize/parse cycle on one
optional field: a set-but-empty value comes back unset. -/
def normOpt : Option String → Option String
  | none => none
  | some s => if s = "" then none else some s

/-- The config a serialize/parse round trip produces: every field kept,
except that empty-string optional fields come back unset. -/
def normalizeEmpty (c : VMConfig) : VMConfig :=
  { c with
    project := normOpt c.project
    workstation_disk := normOpt c.workstation_disk
    region := normOpt c.region
    app_dir := normOpt c.app_dir
    ssh_host := normOpt c.ssh_host
    ssh_user := normOpt c.ssh_user
    ssh_key := normOpt c.ssh_key }

/-! ## `VMManager` transport command lines (`src/vmctl/core/vm.py`) -/

/-- `VMManager.use_direct_ssh`: `self.config.ssh_host is not None`. -/
def use_direct_ssh (c : VMConfig) : Bool := c.ssh_host.isSome

/-- Python truthiness of an optional string (`if self.config.x:`). -/
def optTruthy : Option String → Bool
  | some s => s != ""
  | none => false

/-- Python truthiness of an optional int (`if self.config.ssh_port:`). -/
def portTruthy : Option Nat → Bool
  | some p => p != 0
  | none => false

/-- `f"{x}"` for an optional string (`None` renders as `"None"`). -/
def pyStrOpt : Option String → String
  | some s => s
  | none => "None"

/-- `VMManager._ssh_opts`. -/
def sshOpts (c : VMConfig) : List String :=
  ["-o", "StrictHostKeyChecking=no", "-o", "UserKnownHostsFile=/dev/null"]
    ++ (if optTruthy c.ssh_key then ["-i", orEmpty c.ssh_key] else [])
    ++ (if portTruthy c.ssh_port then ["-p", natDecimal (c.ssh_port.getD 0)] else [])

/-- `VMManager._scp_opts`. -/
def scpOpts (c : VMConfig) : List String :=
  ["-o", "StrictHostKeyChecking=no", "-o", "UserKnownHostsFile=/dev/null"]
    ++ (if optTruthy c.ssh_key then ["-i", orEmpty c.ssh_key] else [])
    ++ (if portTruthy c.ssh_port then ["-P", natDecimal (c.ssh_port.getD 0)] else [])

/-- `VMManager._ssh_target`: `user@host`, or `host or ""`. -/
def sshTarget (c : VMConfig) : String :=
  if optTruthy c.ssh_user then orEmpty c.ssh_user ++ "@" ++ pyStrOpt c.ssh_host
  else orEmpty c.ssh_host

/-- The argv built by `VMManager.ssh` (optional interactive command). -/
def sshCmd (c : VMConfig) (command : Option String) : List String :=
  if use_direct_ssh c then
    ["ssh"] ++ sshOpts c ++ [sshTarget c] ++
      (if optTruthy command then [orEmpty command] else [])
  else
    ["gcloud", "compute", "ssh", c.vm_name, "--zone=" ++ c.zone,
     "--project=" ++ pyStrOpt c.project, "--tunnel-through-iap"] ++
      (if optTruthy command then ["--command", orEmpty command] else [])

/-- The argv built by `VMManager.ssh_exec`. -/
def sshExecCmd (c : VMConfig) (command : String) : List String :=
  if use_direct_ssh c then
    ["ssh"] ++ sshOpts c ++ [sshTarget c, command]
  else
    ["gcloud", "compute", "ssh", c.vm_name, "--zone=" ++ c.zone,
     "--project=" ++ pyStrOpt c.project, "--tunnel-through-iap", "--command", command]

/-- The argv built by `VMManager.scp`. -/
def scpCmd (c : VMConfig) (local_path remote_path : String) (recursive : Bool) :
    List String :=
  if use_direct_ssh c then
    ["scp"] ++ scpOpts c ++ (if recursive then ["-r"] else []) ++
      [local_path, sshTarget c ++ ":" ++ remote_path]
  else
    ["gcloud", "compute", "scp"] ++ (if recursive then ["--recurse"] else []) ++
      [local_path, c.vm_name ++ ":" ++ remote_path, "--zone=" ++ c.zone,
       "--project=" ++ pyStrOpt c.project, "--tunnel-through-iap"]

/-- C1: with `ssh_host` set every remote operation (`ssh`, `ssh_exec`,
`scp`) invokes `ssh`/`scp` and never `gcloud`; with `ssh_host` unset every
remote operation invokes `gcloud` with the IAP tunnel flag and never a
direct `ssh`/`scp`. -/
theorem transport_selection (c : VMConfig) (cmd : Option String)
    (s lp rp : String) (r : Bool) :
    (c.ssh_host.isSome = true →
      (sshCmd c cmd).head? = some "ssh" ∧
      (sshExecCmd c s).head? = some "ssh" ∧
      (scpCmd c lp rp r).head? = some "scp" ∧
      (sshCmd c cmd).head? ≠ some "gcloud" ∧
      (sshExecCmd c s).head? ≠ some "gcloud" ∧
      (scpCmd c lp rp r).head? ≠ some "gcloud") ∧
    (c.ssh_host = none →
      (sshCmd c cmd).head? = some "gcloud" ∧
      "--tunnel-through-iap" ∈ sshCmd c cmd ∧
      (sshExecCmd c s).head? = some "gcloud" ∧
      "--tunnel-through-iap" ∈ sshExecCmd c s ∧
      (scpCmd c lp rp r).head? = some "gcloud" ∧
      "--tunnel-through-iap" ∈ scpCmd c lp rp r ∧
      (sshCmd c cmd).head? ≠ some "ssh" ∧
      (sshExecCmd c s).head? ≠ some "ssh" ∧
      (scpCmd c lp rp r).head? ≠ some "scp") := by
  constructor
  · intro h
    have hd : use_direct_ssh c = true := h
    simp [sshCmd, sshExecCmd, scpCmd, hd]
  · intro h
    have hd : use_direct_ssh c = false := by simp [use_direct_ssh, h]
    simp [sshCmd, sshExecCmd, scpCmd, hd]

/-- Witness for C1 at concrete configs: a direct-SSH config and the
default (proxied) config. -/
theorem transport_selection_witness :
    (sshExecCmd { ssh_host := some "10.0.0.5" } "echo ok").head? = some "ssh" ∧
    (sshExecCmd {} "echo ok").head? = some "gcloud" := by
  constructor
  · exact ((transport_selection { ssh_host := some "10.0.0.5" } none "echo ok" "" "" false).1
      (by decide)).2.1
  · exact ((transport_selection {} none "echo ok" "" "" false).2 rfl).2.2.1

/-- C6: `validate_vm_name` rejects the empty name, names starting with a
non-letter, names containing a character other than letters, digits and
hyphens, and names longer than 63 characters; it accepts `"my-vm-1"` and
returns every accepted name lowercased.  (The character-class conjuncts
are qualified to ASCII, where the embedded classifier agrees with
Python's.) -/
theorem vm_name_validation (v w : String) :
    validate_vm_name "" = .error "VM name cannot be empty" ∧
    (validate_vm_name "123vm").isOk = false ∧
    (validate_vm_name "vm_name").isOk = false ∧
    (63 < v.length → (validate_vm_name v).isOk = false) ∧
    (v ≠ "" → (v.get 0).toNat < 128 → ¬(v.get 0).isAlpha →
      (validate_vm_name v).isOk = false) ∧
    (∀ c ∈ v.data, c.toNat < 128 → ¬c.isAlphanum → c ≠ '-' →
      (validate_vm_name v).isOk = false) ∧
    validate_vm_name "my-vm-1" = .ok "my-vm-1" ∧
    (validate_vm_name v = .ok w → w = pyLower v) := by
  refine ⟨by decide, by decide, by decide, ?_, ?_, ?_, by decide, ?_⟩
  · intro h
    unfold validate_vm_name
    split_ifs with g1 g2 g3 g4 <;> first | rfl | omega
  · intro h1 _ h3
    unfold validate_vm_name
    split_ifs with g1 g2 g3 g4 <;> try rfl
    exact absurd (by simpa using g2) h3
  · intro ch hc _ h2 h3
    unfold validate_vm_name
    split_ifs with g1 g2 g3 g4 <;> try rfl
    have hall : (v.data.all fun c => c.isAlphanum || c = '-') = true := by
      cases hb : (v.data.all fun c => c.isAlphanum || c = '-') with
      | false => exact absurd (by simp [hb]) g3
      | true => rfl
    have hch := List.all_eq_true.mp hall ch hc
    simp only [Bool.or_eq_true, decide_eq_true_eq] at hch
    rcases hch with hch | hch
    · exact absurd hch h2
    · exact absurd hch h3
  · intro h
    unfold validate_vm_name at h
    split_ifs at h
    all_goals first
      | exact Except.noConfusion h
      | (injection h with h'; exact h'.symm)

/-- Witness for C6 at concrete names: a 64-character name, a
digit-initial name, an underscore name, and a case-normalised accept. -/
theorem vm_name_validation_witness :
    (validate_vm_name
      "aaaaaaaaaaaaaaaaaaaaaaaaaaaaaaaaaaaaaaaaaaaaaaaaaaaaaaaaaaaaaaaa").isOk = false ∧
    (validate_vm_name "9vm").isOk = false ∧
    (validate_vm_name "a_b").isOk = false ∧
    "my-x" = pyLower "MY-X" := by
  refine ⟨?_, ?_, ?_, ?_⟩
  · exact (vm_name_validation
      "aaaaaaaaaaaaaaaaaaaaaaaaaaaaaaaaaaaaaaaaaaaaaaaaaaaaaaaaaaaaaaaa" "").2.2.2.1
      (by decide)
  · exact (vm_name_validation "9vm" "").2.2.2.2.1 (by decide) (by decide) (by decide)
  · exact (vm_name_validation "a_b" "").2.2.2.2.2.1 '_' (by decide) (by decide)
      (by decide) (by decide)
  · exact (vm_name_validation "MY-X" "my-x").2.2.2.2.2.2.2 (by decide)

/-! ## Behaviour of the string primitives on serializer output -/

theorem dropWhile_head_false {p : Char → Bool} :
    ∀ {l : List Char}, (∀ a, l.head? = some a → p a = false) → l.dropWhile p = l
  | [], _ => rfl
  | a :: l, h => by
    rw [List.dropWhile_cons, h a rfl]
    simp

/-- `strip()` is the identity when both ends are non-whitespace. -/
theorem pyStrip_eq_self {l : List Char}
    (h1 : ∀ a, l.head? = some a → pyIsSpace a = false)
    (h2 : ∀ a, l.getLast? = some a → pyIsSpace a = false) :
    pyStrip l = l := by
  unfold pyStrip
  rw [dropWhile_head_false h1]
  rw [dropWhile_head_false (by simpa [List.head?_reverse] using h2)]
  exact List.reverse_reverse l

/-- Stripping a quote character from a quote-delimited string strips it
from the delimited content. -/
theorem pyStripChar_sandwich (q : Char) (v : List Char) :
    pyStripChar q ((q :: v) ++ [q]) = pyStripChar q v := by
  unfold pyStripChar
  have h1 : List.dropWhile (· = q) (q :: (v ++ [q])) = List.dropWhile (· = q) (v ++ [q]) := by
    simp [List.dropWhile_cons]
  rw [List.cons_append, h1, List.dropWhile_append]
  by_cases hv : (v.dropWhile (· = q)).isEmpty
  · rw [if_pos hv]
    rw [List.isEmpty_iff] at hv
    rw [hv]
    simp [List.dropWhile_cons]
  · rw [if_neg hv, List.reverse_append]
    simp [List.dropWhile_cons]

/-- `split("=", 1)` on a line whose key contains no `'='`. -/
theorem splitFirstEq_append (k rest : List Char) (hk : '=' ∉ k) :
    splitFirstEq (k ++ '=' :: rest) = some (k, rest) := by
  induction k with
  | nil => simp [splitFirstEq]
  | cons c k ih =>
    have hc : c ≠ '=' := fun e => hk (e ▸ List.mem_cons_self c k)
    have hk' : '=' ∉ k := fun m => hk (List.mem_cons_of_mem c m)
    rw [List.cons_append, splitFirstEq]
    simp [hc, ih hk']

set_option maxHeartbeats 1600000 in
/-- `splitlines` peels one break-free line terminated by `'\n'`. -/
theorem pySplitlines_append (xs rest : List Char)
    (h : ∀ c ∈ xs, isLineBreak c = false) :
    pySplitlines (xs ++ '\n' :: rest) = xs :: pySplitlines rest := by
  induction xs with
  | nil => rfl
  | cons c xs ih =>
    have hc : isLineBreak c = false := h c (List.mem_cons_self c xs)
    have hcr : c ≠ '\r' := by
      intro e
      rw [e] at hc
      simp [isLineBreak] at hc
    have ih' := ih fun a ha => h a (List.mem_cons_of_mem c ha)
    rw [List.cons_append, pySplitlines.eq_3 c _ (fun _ e _ => hcr e),
      if_neg (by simp [hc]), ih']

/-- Stripping a character absent from both ends (indeed from the whole
list) is the identity. -/
theorem pyStripChar_eq_self {q : Char} {l : List Char} (h : ∀ a ∈ l, a ≠ q) :
    pyStripChar q l = l := by
  have h1 : ∀ a, l.head? = some a → (decide (a = q)) = false := fun a ha => by
    simp only [decide_eq_false_iff_not]
    exact h a (List.mem_of_mem_head? (Option.mem_def.mpr ha))
  have h2 : ∀ a, l.reverse.head? = some a → (decide (a = q)) = false := fun a ha => by
    simp only [decide_eq_false_iff_not]
    exact h a (List.mem_reverse.mp (List.mem_of_mem_head? (Option.mem_def.mpr ha)))
  unfold pyStripChar
  rw [dropWhile_head_false h1, dropWhile_head_false h2, List.reverse_reverse]

/-- A value kept intact by the parser's unquoting: no line-break
characters, and stripping quote characters from its ends is the identity. -/
def SafeValue (s : String) : Prop :=
  (∀ c ∈ s.data, isLineBreak c = false) ∧
  pyStripChar '\'' (pyStripChar '"' s.data) = s.data

instance (s : String) : Decidable (SafeValue s) := by
  unfold SafeValue; infer_instance

/-- `SafeValue` for a set optional field; trivial for an unset one. -/
def SafeOpt : Option String → Prop
  | none => True
  | some s => SafeValue s

instance (o : Option String) : Decidable (SafeOpt o) := by
  cases o <;> (unfold SafeOpt; infer_instance)

/-- Letters, digits and hyphens are safe values. -/
theorem alnumHyphen_safe (v : String)
    (h : ∀ c ∈ v.data, (c.isAlphanum || c = '-') = true) : SafeValue v := by
  have hclass : ∀ c ∈ v.data, isLineBreak c = false ∧ c ≠ '"' ∧ c ≠ '\'' := by
    intro c hc
    have := h c hc
    simp only [Bool.or_eq_true, decide_eq_true_eq] at this
    rcases this with hcl | hcl
    · refine ⟨?_, ?_, ?_⟩
      · cases hb : isLineBreak c
        · rfl
        · exfalso
          simp only [isLineBreak, Bool.or_eq_true, decide_eq_true_eq] at hb
          rcases hb with ((((((((e | e) | e) | e) | e) | e) | e) | e) | e) | e <;>
            (rw [e] at hcl; revert hcl; decide)
      · intro e; rw [e] at hcl; revert hcl; decide
      · intro e; rw [e] at hcl; revert hcl; decide
    · subst hcl; exact ⟨by decide, by decide, by decide⟩
  refine ⟨fun c hc => (hclass c hc).1, ?_⟩
  rw [pyStripChar_eq_self (fun a ha => (hclass a ha).2.1)]
  exact pyStripChar_eq_self (fun a ha => (hclass a ha).2.2)

/-- Decimal digits are safe values. -/
theorem digits_safe (n : Nat) : SafeValue (natDecimal n) := by
  have hd : ∀ c ∈ (natDecimal n).data, c.isDigit = true := by
    intro c hc
    exact List.all_eq_true.mp (natDigits_all_digits n) c hc
  have hclass : ∀ c ∈ (natDecimal n).data, isLineBreak c = false ∧ c ≠ '"' ∧ c ≠ '\'' := by
    intro c hc
    have hdig := hd c hc
    have hval : 48 ≤ c.toNat ∧ c.toNat ≤ 57 := by
      simp only [Char.isDigit, decide_eq_true_eq, Bool.and_eq_true] at hdig
      constructor
      · exact_mod_cast hdig.1
      · exact_mod_cast hdig.2
    refine ⟨?_, ?_, ?_⟩
    · cases hb : isLineBreak c
      · rfl
      · exfalso
        simp only [isLineBreak, Bool.or_eq_true, decide_eq_true_eq] at hb
        rcases hb with ((((((((e | e) | e) | e) | e) | e) | e) | e) | e) | e <;>
          (rw [e] at hval; revert hval; decide)
    · intro e; rw [e] at hval; revert hval; decide
    · intro e; rw [e] at hval; revert hval; decide
  refine ⟨fun c hc => (hclass c hc).1, ?_⟩
  rw [pyStripChar_eq_self (fun a ha => (hclass a ha).2.1)]
  exact pyStripChar_eq_self (fun a ha => (hclass a ha).2.2)

/-- An accepted instance name is non-empty and uses only letters, digits
and hyphens. -/
theorem valid_vm_name_chars {v w : String} (h : validate_vm_name v = .ok w) :
    v ≠ "" ∧ ∀ c ∈ v.data, (c.isAlphanum || c = '-') = true := by
  unfold validate_vm_name at h
  split_ifs at h with g1 g2 g3 g4
  refine ⟨g1, ?_⟩
  intro c hc
  have hall : (v.data.all fun c => c.isAlphanum || c = '-') = true := by
    cases hb : (v.data.all fun c => c.isAlphanum || c = '-') with
    | false => exact absurd (by simp [hb]) g3
    | true => rfl
  exact List.all_eq_true.mp hall c hc

/-- An accepted zone is non-empty. -/
theorem valid_zone_ne {v w : String} (h : validate_zone v = .ok w) : v ≠ "" := by
  unfold validate_zone at h
  split_ifs at h with g1 g2
  exact g1

/-! ## One serialized line through the parse loop -/

/-- The characters of one `KEY="value"` line. -/
theorem bashLine_data (key v : String) :
    (bashLine key v).data = key.data ++ ('=' :: '"' :: (v.data ++ ['"'])) := by
  show (key ++ "=\"" ++ v ++ "\"").data = _
  rw [String.data_append, String.data_append, String.data_append]
  show (key.data ++ ['=', '"']) ++ v.data ++ ['"'] = _
  simp [List.append_assoc]

/-- Every character of a `KEY="value"` line is break-free, provided the
key and the value are. -/
theorem bashLine_noBreak (key v : String)
    (hk : ∀ c ∈ key.data, isLineBreak c = false)
    (hv : ∀ c ∈ v.data, isLineBreak c = false) :
    ∀ c ∈ key.data ++ ('=' :: '"' :: (v.data ++ ['"'])), isLineBreak c = false := by
  intro c hc
  simp only [List.mem_append, List.mem_cons, List.mem_singleton] at hc
  rcases hc with hm | rfl | rfl | hm | rfl | h
  · exact hk c hm
  · decide
  · decide
  · exact hv c hm
  · decide
  · exact absurd h (List.not_mem_nil c)

/-- Processing one well-formed `KEY="value"` line assigns the unquoted
value (empty mapped to `None`) to the key's slot. -/
theorem parseLine_assign (acc : BashAssigns) (key v : String)
    (hne : key.data ≠ [])
    (hkeq : '=' ∉ key.data)
    (hhead : ∀ a, key.data.head? = some a → (pyIsSpace a = false ∧ a ≠ '#'))
    (hlast : ∀ a, key.data.getLast? = some a → pyIsSpace a = false) :
    parseLine acc (key.data ++ ('=' :: '"' :: (v.data ++ ['"']))) =
      assignKey acc key
        (if String.mk (pyStripChar '\'' (pyStripChar '"' v.data)) = "" then none
         else some (String.mk (pyStripChar '\'' (pyStripChar '"' v.data)))) := by
  obtain ⟨k0, ks, hk⟩ := List.exists_cons_of_ne_nil hne
  have hstrip : pyStrip (key.data ++ ('=' :: '"' :: (v.data ++ ['"']))) =
      key.data ++ ('=' :: '"' :: (v.data ++ ['"'])) := by
    apply pyStrip_eq_self
    · intro a ha
      rw [hk, List.cons_append, List.head?_cons, Option.some.injEq] at ha
      exact ((hhead a (by rw [hk, List.head?_cons, ha])).1)
    · intro a ha
      have hshape : key.data ++ ('=' :: '"' :: (v.data ++ ['"'])) =
          (key.data ++ ('=' :: '"' :: v.data)) ++ ['"'] := by
        simp [List.append_assoc]
      rw [hshape, List.getLast?_concat, Option.some.injEq] at ha
      rw [← ha]
      decide
  have hkey_strip : pyStrip key.data = key.data := by
    apply pyStrip_eq_self
    · intro a ha
      exact (hhead a ha).1
    · exact hlast
  have hval_strip : pyStrip ('"' :: (v.data ++ ['"'])) = '"' :: (v.data ++ ['"']) := by
    apply pyStrip_eq_self
    · intro a ha
      rw [List.head?_cons, Option.some.injEq] at ha
      rw [← ha]
      decide
    · intro a ha
      rw [show ('"' :: (v.data ++ ['"'])) = ('"' :: v.data) ++ ['"'] from by simp,
        List.getLast?_concat, Option.some.injEq] at ha
      rw [← ha]
      decide
  unfold parseLine
  simp only [hstrip]
  rw [if_neg (by rw [hk]; simp)]
  rw [if_neg (by
    rw [hk, List.cons_append, List.head?_cons]
    intro hcon
    exact (hhead k0 (by rw [hk, List.head?_cons])).2 (Option.some.injEq _ _ ▸ hcon))]
  rw [if_pos (by simp [List.contains_eq_any_beq])]
  rw [splitFirstEq_append _ _ hkeq]
  simp only [hkey_strip, hval_strip]
  rw [show ('"' :: (v.data ++ ['"'])) = (('"' :: v.data) ++ ['"']) from by simp,
    pyStripChar_sandwich]

/-- Transport a fact about a list's known head to all witnesses of
`head? = some a`. -/
theorem head_forall {α : Type} {l : List α} {a0 : α} {P : α → Prop}
    (h : l.head? = some a0) (hp : P a0) : ∀ a, l.head? = some a → P a :=
  fun a ha => by
    rw [h] at ha
    injection ha with e
    exact e ▸ hp

/-- Transport a fact about a list's known last element to all witnesses
of `getLast? = some a`. -/
theorem last_forall {α : Type} {l : List α} {a0 : α} {P : α → Prop}
    (h : l.getLast? = some a0) (hp : P a0) : ∀ a, l.getLast? = some a → P a :=
  fun a ha => by
    rw [h] at ha
    injection ha with e
    exact e ▸ hp

/-- Processing one serialized `bashLine` assigns the unquoted value. -/
theorem parseLine_bashLine (acc : BashAssigns) (key v : String)
    (hne : key.data ≠ [])
    (hkeq : '=' ∉ key.data)
    (hhead : ∀ a, key.data.head? = some a → (pyIsSpace a = false ∧ a ≠ '#'))
    (hlast : ∀ a, key.data.getLast? = some a → pyIsSpace a = false) :
    parseLine acc (bashLine key v).data = assignKey acc key (strippedVal v) := by
  rw [bashLine_data, parseLine_assign acc key v hne hkeq hhead hlast]
  rfl

/-- A non-empty character list does not make the empty string. -/
theorem mk_ne_empty {l : List Char} (h : l ≠ []) : String.mk l ≠ "" := by
  intro e
  exact h (congrArg String.data e)

/-- For a safe value the unquoting is the identity (up to the empty-string
rule). -/
theorem strippedVal_safe (s : String) (h : SafeValue s) :
    strippedVal s = if s = "" then none else some s := by
  unfold strippedVal
  rw [h.2]

/-- A safe non-empty value survives the round trip unchanged. -/
theorem strippedVal_req (s : String) (h : SafeValue s) (hne : s ≠ "") :
    strippedVal s = some s := by
  rw [strippedVal_safe s h, if_neg hne]

/-- A safe optional field round-trips to its `None`-normalisation. -/
theorem strippedVal_orEmpty (o : Option String) (h : SafeOpt o) :
    strippedVal (orEmpty o) = normOpt o := by
  cases o with
  | none => rfl
  | some s =>
    show strippedVal s = _
    rw [strippedVal_safe s h]
    rfl

/-- A serialized port survives unquoting. -/
theorem strippedVal_port (p : Nat) :
    strippedVal (natDecimal p) = some (natDecimal p) :=
  strippedVal_req _ (digits_safe p) (mk_ne_empty (natDigits_ne_nil p))

/-- The serialized config as a character list: ten quoted lines, each
terminated by `'\n'`. -/
theorem to_bash_format_data (c : VMConfig) :
    (to_bash_format c).data =
      (bashLine "VM_NAME" c.vm_name).data ++ '\n' ::
      ((bashLine "ZONE" c.zone).data ++ '\n' ::
      ((bashLine "PROJECT" (orEmpty c.project)).data ++ '\n' ::
      ((bashLine "WORKSTATION_DISK" (orEmpty c.workstation_disk)).data ++ '\n' ::
      ((bashLine "REGION" (orEmpty c.region)).data ++ '\n' ::
      ((bashLine "APP_DIR" (orEmpty c.app_dir)).data ++ '\n' ::
      ((bashLine "SSH_HOST" (orEmpty c.ssh_host)).data ++ '\n' ::
      ((bashLine "SSH_USER" (orEmpty c.ssh_user)).data ++ '\n' ::
      ((bashLine "SSH_KEY" (orEmpty c.ssh_key)).data ++ '\n' ::
      ((bashLine "SSH_PORT" (portValue c.ssh_port)).data ++ '\n' :: []))))))))) := by
  show (String.intercalate "\n" _ ++ "\n").data = _
  rw [String.data_append]
  simp only [String.intercalate, String.intercalate.go, String.data_append]
  have hn : ("\n" : String).data = ['\n'] := rfl
  simp [hn, List.append_assoc]

set_option maxHeartbeats 3200000 in
/-- C2 (amended): for a valid config whose string fields are free of
line breaks and stable under end-quote stripping, parsing the serialized
bash format recovers the config exactly, except that optional fields set
to the empty string come back unset. -/
theorem bash_roundtrip (c : VMConfig) (hv : ValidConfig c)
    (hz : SafeValue c.zone) (hp : SafeOpt c.project)
    (hwd : SafeOpt c.workstation_disk) (hr : SafeOpt c.region)
    (ha : SafeOpt c.app_dir) (hsh : SafeOpt c.ssh_host)
    (hsu : SafeOpt c.ssh_user) (hsk : SafeOpt c.ssh_key) :
    from_bash_format (to_bash_format c) = .ok (normalizeEmpty c) := by
  obtain ⟨hvm1, hvm2⟩ := valid_vm_name_chars hv.1
  have hvm_safe : SafeValue c.vm_name := alnumHyphen_safe _ hvm2
  have hzne : c.zone ≠ "" := valid_zone_ne hv.2
  have hOpt : ∀ o : Option String, SafeOpt o →
      ∀ ch ∈ (orEmpty o).data, isLineBreak ch = false := by
    intro o h ch hc
    cases o with
    | none => simp [orEmpty] at hc
    | some s => exact h.1 ch hc
  have hPort : ∀ ch ∈ (portValue c.ssh_port).data, isLineBreak ch = false := by
    cases c.ssh_port with
    | none => intro ch hc; simp [portValue] at hc
    | some p => intro ch hc; exact (digits_safe p).1 ch hc
  have hsplit : pySplitlines (to_bash_format c).data =
      [(bashLine "VM_NAME" c.vm_name).data,
       (bashLine "ZONE" c.zone).data,
       (bashLine "PROJECT" (orEmpty c.project)).data,
       (bashLine "WORKSTATION_DISK" (orEmpty c.workstation_disk)).data,
       (bashLine "REGION" (orEmpty c.region)).data,
       (bashLine "APP_DIR" (orEmpty c.app_dir)).data,
       (bashLine "SSH_HOST" (orEmpty c.ssh_host)).data,
       (bashLine "SSH_USER" (orEmpty c.ssh_user)).data,
       (bashLine "SSH_KEY" (orEmpty c.ssh_key)).data,
       (bashLine "SSH_PORT" (portValue c.ssh_port)).data] := by
    rw [to_bash_format_data,
      pySplitlines_append _ _
        (by rw [bashLine_data]; exact bashLine_noBreak _ _ (by decide) hvm_safe.1),
      pySplitlines_append _ _
        (by rw [bashLine_data]; exact bashLine_noBreak _ _ (by decide) hz.1),
      pySplitlines_append _ _
        (by rw [bashLine_data]; exact bashLine_noBreak _ _ (by decide) (hOpt _ hp)),
      pySplitlines_append _ _
        (by rw [bashLine_data]; exact bashLine_noBreak _ _ (by decide) (hOpt _ hwd)),
      pySplitlines_append _ _
        (by rw [bashLine_data]; exact bashLine_noBreak _ _ (by decide) (hOpt _ hr)),
      pySplitlines_append _ _
        (by rw [bashLine_data]; exact bashLine_noBreak _ _ (by decide) (hOpt _ ha)),
      pySplitlines_append _ _
        (by rw [bashLine_data]; exact bashLine_noBreak _ _ (by decide) (hOpt _ hsh)),
      pySplitlines_append _ _
        (by rw [bashLine_data]; exact bashLine_noBreak _ _ (by decide) (hOpt _ hsu)),
      pySplitlines_append _ _
        (by rw [bashLine_data]; exact bashLine_noBreak _ _ (by decide) (hOpt _ hsk)),
      pySplitlines_append _ _
        (by rw [bashLine_data]; exact bashLine_noBreak _ _ (by decide) hPort)]
    rfl
  simp only [from_bash_format, hsplit, List.foldl_cons, List.foldl_nil]
  rw [parseLine_bashLine _ "VM_NAME" _ (by decide) (by decide)
      (head_forall rfl (by decide)) (last_forall rfl (by decide)),
    parseLine_bashLine _ "ZONE" _ (by decide) (by decide)
      (head_forall rfl (by decide)) (last_forall rfl (by decide)),
    parseLine_bashLine _ "PROJECT" _ (by decide) (by decide)
      (head_forall rfl (by decide)) (last_forall rfl (by decide)),
    parseLine_bashLine _ "WORKSTATION_DISK" _ (by decide) (by decide)
      (head_forall rfl (by decide)) (last_forall rfl (by decide)),
    parseLine_bashLine _ "REGION" _ (by decide) (by decide)
      (head_forall rfl (by decide)) (last_forall rfl (by decide)),
    parseLine_bashLine _ "APP_DIR" _ (by decide) (by decide)
      (head_forall rfl (by decide)) (last_forall rfl (by decide)),
    parseLine_bashLine _ "SSH_HOST" _ (by decide) (by decide)
      (head_forall rfl (by decide)) (last_forall rfl (by decide)),
    parseLine_bashLine _ "SSH_USER" _ (by decide) (by decide)
      (head_forall rfl (by decide)) (last_forall rfl (by decide)),
    parseLine_bashLine _ "SSH_KEY" _ (by decide) (by decide)
      (head_forall rfl (by decide)) (last_forall rfl (by decide)),
    parseLine_bashLine _ "SSH_PORT" _ (by decide) (by decide)
      (head_forall rfl (by decide)) (last_forall rfl (by decide))]
  simp only [assignKey, String.reduceEq, if_true, if_false, reduceIte]
  rw [strippedVal_req c.vm_name hvm_safe hvm1, strippedVal_req c.zone hz hzne,
    strippedVal_orEmpty _ hp, strippedVal_orEmpty _ hwd, strippedVal_orEmpty _ hr,
    strippedVal_orEmpty _ ha, strippedVal_orEmpty _ hsh, strippedVal_orEmpty _ hsu,
    strippedVal_orEmpty _ hsk]
  simp only [Option.getD_some]
  rw [hv.1, hv.2]
  cases hpt : c.ssh_port with
  | none =>
    simp [portValue, strippedVal, parsePort, normalizeEmpty, pyStripChar]
    exact hpt.symm
  | some p =>
    rw [show portValue (some p) = natDecimal p from rfl, strippedVal_port p]
    simp [parsePort, decToNat_natDecimal p, normalizeEmpty]
    exact hpt.symm

/-- C2 counterexample: the valid config whose `project` is the
one-character string `"` does not survive the round trip — the parser's
quote-stripping erases the value, which therefore comes back unset, not
equal to the original. -/
theorem bash_roundtrip_counterexample :
    ValidConfig { project := some "\"" } ∧
    from_bash_format (to_bash_format { project := some "\"" }) =
      .ok ({} : VMConfig) ∧
    from_bash_format (to_bash_format { project := some "\"" }) ≠
      .ok { project := some "\"" } := by
  refine ⟨by decide, by decide, by decide⟩

/-- Witness for C2 (amended) at a concrete config exercising a set
`project`, an empty-string `workstation_disk` (which must come back
unset), and all four direct-SSH fields. -/
theorem bash_roundtrip_witness :
    from_bash_format (to_bash_format
      { vm_name := "roundtrip-vm", zone := "us-central1-a",
        project := some "test-project", workstation_disk := some "",
        ssh_host := some "10.0.0.5", ssh_user := some "devuser",
        ssh_key := some "/path/to/key", ssh_port := some 2222 }) =
      .ok { vm_name := "roundtrip-vm", zone := "us-central1-a",
            project := some "test-project", workstation_disk := none,
            ssh_host := some "10.0.0.5", ssh_user := some "devuser",
            ssh_key := some "/path/to/key", ssh_port := some 2222 } := by
  have h := bash_roundtrip
    { vm_name := "roundtrip-vm", zone := "us-central1-a",
      project := some "test-project", workstation_disk := some "",
      ssh_host := some "10.0.0.5", ssh_user := some "devuser",
      ssh_key := some "/path/to/key", ssh_port := some 2222 }
    (by decide) (by decide) (by decide) (by decide) (by decide) (by decide)
    (by decide) (by decide) (by decide)
  exact h.trans (by decide)

/-! ## The `setup` orchestrator (`src/vmctl/cli/commands/docker_commands.py`)

The remote host is modelled as an abstract environment: an *oracle* maps
each issued call (together with the history before it) to a
`(success, stdout, stderr)` result, and a modelled file tree records the
effect of the directory-manipulating commands the sync steps issue
(`mkdir -p`, `rm -rf`, recursive copy).  Local filesystem probes
(`Path.exists`) are a map from path strings to optional trees. -/

/-- `VM_BASE_DIR`. -/
def VM_BASE_DIR : String := "/srv/vmctl"

/-- `DEFAULT_APPS` (dependencies first). -/
def DEFAULT_APPS : List String := ["openclaw-gateway", "workstation"]

/-- A node of the modelled filesystem. -/
inductive FSNode where
  | dir : FSNode
  | file (content : String) : FSNode
deriving DecidableEq, Repr

/-- A directory tree: contents at each relative path (segments). -/
def FSTree : Type := List String → Option FSNode

/-- Split a path string into its non-empty segments. -/
def pathSegs (s : String) : List String :=
  ((splitOnChar '/' s.data).filter (· ≠ [])).map String.mk

/-- The part of a path after its final slash (`Path.name` / what `scp`
derives the target directory name from). -/
def pyBasename (s : String) : String :=
  String.mk ((splitOnChar '/' s.data).getLastD [])

/-- `dropPref p q = some rest` iff `q = p ++ rest`. -/
def dropPref : List String → List String → Option (List String)
  | [], q => some q
  | _, [] => none
  | p :: ps, q :: qs => if p = q then dropPref ps qs else none

/-- `mkdir -p`: create a directory at every prefix of the path where
nothing exists yet. -/
def mkdirP (path : List String) (fs : FSTree) : FSTree := fun q =>
  match fs q with
  | some n => some n
  | none => if q ∈ path.inits then some .dir else none

/-- `rm -rf`: remove the subtree rooted at the path. -/
def rmSub (path : List String) (fs : FSTree) : FSTree := fun q =>
  if (dropPref path q).isSome then none else fs q

/-- Install a tree at a path, replacing whatever was below it. -/
def setSub (path : List String) (t : FSTree) (fs : FSTree) : FSTree := fun q =>
  match dropPref path q with
  | some rest => t rest
  | none => fs q

/-- `scp -r local parent`: the tree lands at `parent/basename`; if that
target already exists as a directory the copy nests one level deeper
(the double-nesting behaviour the sync step's `rm -rf` guards against). -/
def scpTree (t : FSTree) (name : String) (parent : List String) (fs : FSTree) : FSTree :=
  let tgt := parent ++ [name]
  match fs tgt with
  | some .dir => setSub (tgt ++ [name]) t fs
  | _ => setSub tgt t fs

/-- The result of one remote call. -/
structure RemoteResult where
  success : Bool
  stdout : String
  stderr : String
deriving DecidableEq, Repr

/-- One observable remote operation. -/
inductive Event where
  | exec (cmd : String)
  | copy (src dst : String) (recursive : Bool)
  | gcloud (args : List String)
deriving DecidableEq, Repr

/-- Transport operations (`ssh_exec` / `scp`), as opposed to gcloud
control-plane subprocess calls. -/
def isTransport : Event → Bool
  | .exec _ => true
  | .copy _ _ _ => true
  | .gcloud _ => false

/-- Effect of an exec'd command on the modelled remote tree: only the
plain `mkdir -p PATH` / `rm -rf PATH` one-liners issued by the sync step
mutate it; scripts and other commands leave it unchanged. -/
def interpExec (cmd : List Char) (fs : FSTree) : FSTree :=
  match cmd with
  | 'm' :: 'k' :: 'd' :: 'i' :: 'r' :: ' ' :: '-' :: 'p' :: ' ' :: rest =>
      mkdirP (pathSegs (String.mk rest)) fs
  | 'r' :: 'm' :: ' ' :: '-' :: 'r' :: 'f' :: ' ' :: rest =>
      rmSub (pathSegs (String.mk rest)) fs
  | _ => fs

/-- The orchestrator's environment: remote responses, loaded config,
local filesystem, apps-directory discovery, and the initial remote tree. -/
structure Env where
  oracle : List Event → Event → RemoteResult
  cfg : VMConfig
  configExists : Bool
  localFS : String → Option FSTree
  findAppsDir : Option String
  fs0 : FSTree

/-- The orchestrator's running state: the trace of issued calls and the
modelled remote tree. -/
structure OrcState where
  events : List Event
  fs : FSTree

/-- Issue one remote call: record the event, ask the environment for its
result, and apply the successful command's modelled effect. -/
def call (env : Env) (st : OrcState) (e : Event) : OrcState × RemoteResult :=
  let r := env.oracle st.events e
  let fs2 :=
    if r.success then
      match e with
      | .exec c => interpExec c.data st.fs
      | .copy src _dst _ =>
        match env.localFS src with
        | some t => scpTree t (pyBasename src) (pathSegs _dst) st.fs
        | none => st.fs
      | .gcloud _ => st.fs
    else st.fs
  (⟨st.events ++ [e], fs2⟩, r)

/-- `vm.ssh_exec(command)` as seen by the orchestrator. -/
def sshExecOp (env : Env) (st : OrcState) (cmd : String) : OrcState × RemoteResult :=
  call env st (.exec cmd)

/-- `vm.scp(local, remote, recursive)` as seen by the orchestrator. -/
def scpOp (env : Env) (st : OrcState) (src dst : String) (recursive : Bool) :
    OrcState × RemoteResult :=
  call env st (.copy src dst recursive)

/-- The gcloud describe call of `VMManager.exists`. -/
def describeEvent (cfg : VMConfig) : Event :=
  .gcloud ["compute", "instances", "describe", cfg.vm_name,
    "--zone=" ++ cfg.zone, "--project=" ++ pyStrOpt cfg.project]

/-- The gcloud status query of `VMManager.status`. -/
def statusEvent (cfg : VMConfig) : Event :=
  .gcloud ["compute", "instances", "describe", cfg.vm_name,
    "--zone=" ++ cfg.zone, "--project=" ++ pyStrOpt cfg.project,
    "--format=value(status)"]

/-- `VMManager.exists`. -/
def vmExists (env : Env) (st : OrcState) : OrcState × Bool :=
  let p := call env st (describeEvent env.cfg)
  (p.1, p.2.success)

/-- `VMManager.status`: `stdout or "UNKNOWN"` on success, `VMError` on
failure. -/
def vmStatus (env : Env) (st : OrcState) : OrcState × Except String String :=
  let p := call env st (statusEvent env.cfg)
  (p.1, if p.2.success then .ok (if p.2.stdout = "" then "UNKNOWN" else p.2.stdout)
        else .error p.2.stderr)

/-- `_check_vm_running`: a connectivity probe (`echo ok`) in direct-SSH
mode; otherwise a gcloud existence check and a RUNNING status check.
`false` means the command aborts. -/
def checkVmRunning (env : Env) (st : OrcState) : OrcState × Bool :=
  if use_direct_ssh env.cfg then
    let p := sshExecOp env st "echo ok"
    (p.1, p.2.success)
  else
    match vmExists env st with
    | (st2, false) => (st2, false)
    | (st2, true) =>
      match vmStatus env st2 with
      | (st3, .error _) => (st3, false)
      | (st3, .ok s) => (st3, s == "RUNNING")

/-- The `--apps` parsing in `setup`: the default pair when the option is
falsy, else the comma-split entries, stripped, empty entries dropped. -/
def parse_apps : Option String → List String
  | none => DEFAULT_APPS
  | some s =>
    if s = "" then DEFAULT_APPS
    else (((splitOnChar ',' s.data).map pyStrip).filter (· ≠ [])).map String.mk

/-- `local_apps_dir / app_name`. -/
def joinPath (d a : String) : String := d ++ "/" ++ a

/-- The pre-flight loop of `setup`: every requested app must exist
locally; the first missing one aborts. -/
def validateApps (env : Env) (dir : String) : List String → Bool
  | [] => true
  | a :: rest =>
    if (env.localFS (joinPath dir a)).isSome then validateApps env dir rest
    else false

/-- The inline provisioning script of `setup` (run only when Docker is
absent). -/
def setupProvisionScript : String :=
  "\nset -e\n\n# Ensure curl/git exist\n" ++
  "if ! command -v curl >/dev/null 2>&1 || ! command -v git >/dev/null 2>&1; then\n" ++
  "    sudo apt-get update -y\n    sudo apt-get install -y curl git\nfi\n\n" ++
  "# Install Docker\necho \"Installing Docker...\"\n" ++
  "curl -fsSL https://get.docker.com | sudo sh\n" ++
  "echo \"Docker installed successfully\"\n\n" ++
  "# Add current user to docker group\nsudo usermod -aG docker $USER\n\n" ++
  "# Ensure Docker service is running\nsudo systemctl enable docker\n" ++
  "sudo systemctl start docker\n\n" ++
  "# Verify Docker is working\necho \"Verifying Docker installation...\"\n" ++
  "sudo docker --version\nsudo docker compose version\n\n" ++
  "echo \"Provisioning complete!\"\n"

/-- The `_setup_molt_directories` script: the agent directory skeleton,
the placeholder secrets file, ownership and permission changes. -/
def moltScript : String :=
  "\nset -e\n" ++
  "sudo mkdir -p " ++ VM_BASE_DIR ++ "/agent/openclaw-gateway/repo\n" ++
  "sudo mkdir -p " ++ VM_BASE_DIR ++ "/agent/openclaw-gateway/outbox\n" ++
  "sudo mkdir -p " ++ VM_BASE_DIR ++ "/agent/openclaw-gateway/state\n" ++
  "sudo mkdir -p " ++ VM_BASE_DIR ++ "/agent/openclaw-gateway/secrets\n" ++
  "sudo mkdir -p " ++ VM_BASE_DIR ++ "/apps\n\n" ++
  "# Create placeholder agent.env if it doesn't exist (required by openclaw-gateway deploy.sh)\n" ++
  "if [ ! -f " ++ VM_BASE_DIR ++ "/agent/openclaw-gateway/secrets/agent.env ]; then\n" ++
  "    sudo touch " ++ VM_BASE_DIR ++ "/agent/openclaw-gateway/secrets/agent.env\n" ++
  "    sudo chmod 600 " ++ VM_BASE_DIR ++ "/agent/openclaw-gateway/secrets/agent.env\nfi\n\n" ++
  "# Set ownership to current user for app deployment\n" ++
  "sudo chown -R $USER:$USER " ++ VM_BASE_DIR ++ "\n\n" ++
  "# Make state and outbox world-writable for container access\n" ++
  "# (Container runs as root, host directories owned by $USER)\n" ++
  "# Use -R to fix any subdirectories created by previous container runs\n" ++
  "sudo chmod -R 777 " ++ VM_BASE_DIR ++ "/agent/openclaw-gateway/outbox\n" ++
  "sudo chmod -R 777 " ++ VM_BASE_DIR ++ "/agent/openclaw-gateway/state\n\n" ++
  "echo \"Agent directories created:\"\n" ++
  "ls -la " ++ VM_BASE_DIR ++ "/agent/openclaw-gateway/\n"

/-- `_build_deploy_script`: hook, else ff-only git pull, else skip; then
the compose-file check and `docker compose up -d --build`. -/
def build_deploy_script (app_dir : String) : String :=
  "\nset -e\ncd \"" ++ app_dir ++ "\"\n\n" ++
  "# Optional app-provided deploy hook (app-owned behavior)\n" ++
  "if [ -f ./deploy.sh ]; then\n" ++
  "    echo \"Running pre-deploy hook: ./deploy.sh\"\n    bash ./deploy.sh\n" ++
  "elif [ -d .git ]; then\n" ++
  "    echo \"Updating git checkout (ff-only)...\"\n    git pull --ff-only\n" ++
  "else\n    echo \"No deploy.sh or .git found; skipping source update.\"\nfi\n\n" ++
  "# Check for any valid compose file\n" ++
  "if [ ! -f docker-compose.yml ] && [ ! -f docker-compose.yaml ] && \\\n" ++
  "   [ ! -f compose.yml ] && [ ! -f compose.yaml ]; then\n" ++
  "    echo \"Error: No compose file found in " ++ app_dir ++ "\"\n    exit 1\nfi\n\n" ++
  "echo \"Running docker compose up -d --build...\"\n" ++
  "sudo docker compose up -d --build\n\n" ++
  "echo \"Deployment complete. Running containers:\"\nsudo docker compose ps\n"

/-- The `_check_agent_secrets` probe script. -/
def secretsCheckScript : String :=
  "\n    SECRETS_FILE=\"" ++ VM_BASE_DIR ++ "/agent/openclaw-gateway/secrets/agent.env\"\n" ++
  "    if [ ! -f \"$SECRETS_FILE\" ]; then\n        echo \"MISSING\"\n" ++
  "    elif [ ! -s \"$SECRETS_FILE\" ]; then\n        echo \"EMPTY\"\n" ++
  "    else\n        echo \"OK\"\n    fi\n    "

/-- Step 1 of `setup`: skip, or probe for Docker and install it when the
probe reports nothing. -/
def provisionPhase (env : Env) (st : OrcState) (skip : Bool) : OrcState × Bool :=
  if skip then (st, true)
  else
    let p := sshExecOp env st "command -v docker"
    if p.2.success && pyStripS p.2.stdout != "" then (p.1, true)
    else
      let q := sshExecOp env p.1 setupProvisionScript
      (q.1, q.2.success)

/-- Step 2 of `setup`: `_setup_molt_directories`. -/
def moltPhase (env : Env) (st : OrcState) : OrcState × Bool :=
  let p := sshExecOp env st moltScript
  (p.1, p.2.success)

/-- `_sync_gateway_repo`: clear the repo contents, copy the repo next to
it, then shuffle the nested copy into place (both auxiliary execs'
results are discarded; the step's result is the copy's). -/
def syncGatewayRepo (env : Env) (st : OrcState) (repoPath : String) : OrcState × Bool :=
  let p := sshExecOp env st
    ("rm -rf " ++ VM_BASE_DIR ++ "/agent/openclaw-gateway/repo/*")
  let q := scpOp env p.1 repoPath (VM_BASE_DIR ++ "/agent/openclaw-gateway") true
  let st3 :=
    if q.2.success then
      (sshExecOp env q.1
        ("rm -rf " ++ VM_BASE_DIR ++ "/agent/openclaw-gateway/repo/* && mv " ++
         VM_BASE_DIR ++ "/agent/openclaw-gateway/" ++ pyBasename repoPath ++ "/* " ++
         VM_BASE_DIR ++ "/agent/openclaw-gateway/repo/ && rm -rf " ++
         VM_BASE_DIR ++ "/agent/openclaw-gateway/" ++ pyBasename repoPath)).1
    else q.1
  (st3, q.2.success)

/-- Step 3 of `setup`: sync the gateway repo when the gateway app is in
the list and the local repo exists; a missing repo only warns. -/
def gatewayRepoPhase (env : Env) (st : OrcState) (app_list : List String)
    (gateway_repo : Option String) : OrcState × Bool :=
  if "openclaw-gateway" ∈ app_list then
    let repo := gateway_repo.getD "/workspace/openclaw-gateway"
    match env.localFS repo with
    | some _ => syncGatewayRepo env st repo
    | none => (st, true)
  else (st, true)

/-- `remote_apps_parent` of `_sync_app`. -/
def appsParent : String := VM_BASE_DIR ++ "/apps"

/-- The parent-directory command of `_sync_app`. -/
def mkdirCmd : String := "mkdir -p " ++ VM_BASE_DIR ++ "/apps"

/-- The prior-copy removal command of `_sync_app`. -/
def rmCmd (app : String) : String := "rm -rf " ++ VM_BASE_DIR ++ "/apps/" ++ app

/-- `remote_app_path`: where one app lives on the VM. -/
def deployPath (app : String) : String := VM_BASE_DIR ++ "/apps/" ++ app

/-- `_sync_app`: local existence check, parent `mkdir -p` (failure
aborts), `rm -rf` of the prior copy (result discarded), recursive copy
(its success is the step's result). -/
def syncApp (env : Env) (st : OrcState) (appsDir app : String) : OrcState × Bool :=
  match env.localFS (joinPath appsDir app) with
  | none => (st, false)
  | some _ =>
    let p := sshExecOp env st mkdirCmd
    if !p.2.success then (p.1, false)
    else
      let q := sshExecOp env p.1 (rmCmd app)
      let w := scpOp env q.1 (joinPath appsDir app) appsParent true
      (w.1, w.2.success)

/-- `_deploy_app`: one exec of the shared deploy script. -/
def deployApp (env : Env) (st : OrcState) (app : String) : OrcState × Bool :=
  let p := sshExecOp env st (build_deploy_script (deployPath app))
  (p.1, p.2.success)

/-- `_check_agent_secrets`: a probe whose result only drives warnings. -/
def checkAgentSecrets (env : Env) (st : OrcState) : OrcState :=
  (sshExecOp env st secretsCheckScript).1

/-- The service-account lookup of `_grant_bigquery_permissions`. -/
def saDescribeEvent (project vm_name zone : String) : Event :=
  .gcloud ["compute", "instances", "describe", vm_name,
    "--zone=" ++ zone, "--project=" ++ project,
    "--format=value(serviceAccounts[0].email)"]

/-- One role-binding attempt of `_grant_bigquery_permissions`. -/
def bindEvent (project sa role : String) : Event :=
  .gcloud ["projects", "add-iam-policy-binding", project,
    "--member=serviceAccount:" ++ sa, "--role=" ++ role, "--quiet"]

/-- `_grant_bigquery_permissions`: describe the service account, then try
to grant the two BigQuery roles; failures are collected, not raised. -/
def grantBigqueryPermissions (env : Env) (st : OrcState)
    (project vm_name zone : String) : OrcState × Bool :=
  let p := call env st (saDescribeEvent project vm_name zone)
  if !p.2.success then (p.1, false)
  else
    let sa := pyStripS p.2.stdout
    if sa = "" then (p.1, false)
    else
      let q := call env p.1 (bindEvent project sa "roles/bigquery.dataEditor")
      let w := call env q.1 (bindEvent project sa "roles/bigquery.jobUser")
      (w.1, q.2.success && w.2.success)

/-- The gateway-only post-hooks of the per-app loop: the secrets probe,
and (when a project is configured) the grant attempt whose result is
discarded. -/
def postHooks (env : Env) (st : OrcState) (app : String) : OrcState :=
  if app = "openclaw-gateway" then
    let st1 := checkAgentSecrets env st
    if optTruthy env.cfg.project then
      (grantBigqueryPermissions env st1 (orEmpty env.cfg.project)
        env.cfg.vm_name env.cfg.zone).1
    else st1
  else st

/-- The per-app loop of `setup`: sync then deploy each app in list order,
aborting at the first failure; gateway post-hooks after its deploy. -/
def appsLoop (env : Env) (appsDir : String) : OrcState → List String → OrcState × Bool
  | st, [] => (st, true)
  | st, a :: rest =>
    match syncApp env st appsDir a with
    | (st1, false) => (st1, false)
    | (st1, true) =>
      match deployApp env st1 a with
      | (st2, false) => (st2, false)
      | (st2, true) => appsLoop env appsDir (postHooks env st2 a) rest

/-- How a `setup` invocation ends. -/
inductive ExitStatus where
  | ok : ExitStatus
  | aborted : ExitStatus
deriving DecidableEq, Repr

/-- The observable outcome of a `setup` invocation. -/
structure SetupResult where
  events : List Event
  fs : FSTree
  exit : ExitStatus

/-- The `setup` command: config load, VM/connectivity check, app-list
parsing, apps-dir resolution, up-front local validation, provisioning,
directory bootstrap, optional gateway-repo sync, then the per-app loop. -/
def setup (env : Env) (apps : Option String) (apps_dir : Option String)
    (skip_provision : Bool) (gateway_repo : Option String) : SetupResult :=
  if !env.configExists then ⟨[], env.fs0, .aborted⟩
  else
    match checkVmRunning env ⟨[], env.fs0⟩ with
    | (st, false) => ⟨st.events, st.fs, .aborted⟩
    | (st, true) =>
      let app_list := parse_apps apps
      match (if optTruthy apps_dir then apps_dir else env.findAppsDir) with
      | none => ⟨st.events, st.fs, .aborted⟩
      | some appsDir =>
        if !validateApps env appsDir app_list then ⟨st.events, st.fs, .aborted⟩
        else
          match provisionPhase env st skip_provision with
          | (st2, false) => ⟨st2.events, st2.fs, .aborted⟩
          | (st2, true) =>
            match moltPhase env st2 with
            | (st3, false) => ⟨st3.events, st3.fs, .aborted⟩
            | (st3, true) =>
              match gatewayRepoPhase env st3 app_list gateway_repo with
              | (st4, false) => ⟨st4.events, st4.fs, .aborted⟩
              | (st4, true) =>
                match appsLoop env appsDir st4 app_list with
                | (st5, false) => ⟨st5.events, st5.fs, .aborted⟩
                | (st5, true) => ⟨st5.events, st5.fs, .ok⟩

/-! ## Path and tree algebra used by the sync-step proofs -/

theorem splitOnChar_ne_nil (q : Char) : ∀ l : List Char, splitOnChar q l ≠ []
  | [] => by simp [splitOnChar]
  | x :: xs => by
    rw [splitOnChar]
    split
    · simp
    · split <;> simp

theorem splitOnChar_append (q : Char) (xs ys : List Char) :
    splitOnChar q (xs ++ q :: ys) = splitOnChar q xs ++ splitOnChar q ys := by
  induction xs with
  | nil => simp [splitOnChar]
  | cons x xs ih =>
    by_cases hx : x = q
    · subst hx
      rw [List.cons_append, splitOnChar, if_pos rfl, ih, splitOnChar, if_pos rfl,
        List.cons_append]
    · rw [List.cons_append, splitOnChar, if_neg hx, ih, splitOnChar, if_neg hx]
      cases h : splitOnChar q xs with
      | nil => exact absurd h (splitOnChar_ne_nil q xs)
      | cons l ls => simp

theorem splitOnChar_no_sep (q : Char) (xs : List Char) (h : ∀ x ∈ xs, x ≠ q) :
    splitOnChar q xs = [xs] := by
  induction xs with
  | nil => rfl
  | cons x xs ih =>
    rw [splitOnChar, if_neg (h x (List.mem_cons_self x xs)),
      ih fun a ha => h a (List.mem_cons_of_mem x ha)]

/-- Splitting at an unambiguous separator is injective on the left part. -/
theorem append_sep_inj {q : Char} :
    ∀ {xs1 xs2 ys1 ys2 : List Char}, q ∉ xs1 → q ∉ xs2 →
      xs1 ++ q :: ys1 = xs2 ++ q :: ys2 → xs1 = xs2 ∧ ys1 = ys2
  | [], [], _, _, _, _, h => by simpa using h
  | [], x2 :: xs2, _, _, _, h2, h => by
    obtain ⟨he, _⟩ := List.cons_eq_cons.mp h
    exact absurd (he ▸ List.mem_cons_self x2 xs2) h2
  | x1 :: xs1, [], _, _, h1, _, h => by
    obtain ⟨he, _⟩ := List.cons_eq_cons.mp h
    exact absurd (he ▸ List.mem_cons_self x1 xs1) h1
  | x1 :: xs1, x2 :: xs2, ys1, ys2, h1, h2, h => by
    rw [List.cons_append, List.cons_append] at h
    obtain ⟨he, ht⟩ := List.cons_eq_cons.mp h
    obtain ⟨e1, e2⟩ := append_sep_inj (fun m => h1 (List.mem_cons_of_mem x1 m))
      (fun m => h2 (List.mem_cons_of_mem x2 m)) ht
    exact ⟨by rw [he, e1], e2⟩

/-- Equal character data means equal strings. -/
theorem string_data_inj {a b : String} (h : a.data = b.data) : a = b :=
  congrArg String.mk h

theorem string_append_left_cancel {x a b : String} (h : x ++ a = x ++ b) : a = b := by
  have hd := congrArg String.data h
  rw [String.data_append, String.data_append] at hd
  exact string_data_inj (List.append_cancel_left hd)

theorem dropPref_append : ∀ (p r : List String), dropPref p (p ++ r) = some r
  | [], r => by rw [List.nil_append]; cases r <;> simp [dropPref]
  | x :: p, r => by rw [List.cons_append, dropPref, if_pos rfl, dropPref_append p r]

theorem dropPref_self (p : List String) : dropPref p p = some [] := by
  have := dropPref_append p []
  rwa [List.append_nil] at this

theorem dropPref_isSome_length :
    ∀ {p q : List String}, (dropPref p q).isSome = true → p.length ≤ q.length
  | [], _, _ => Nat.zero_le _
  | _ :: _, [], h => by simp [dropPref] at h
  | x :: p, y :: q, h => by
    rw [dropPref] at h
    split_ifs at h with he
    · exact Nat.succ_le_succ (dropPref_isSome_length h)
    · simp at h

theorem setSub_rmSub (p : List String) (t fs : FSTree) :
    setSub p t (rmSub p fs) = setSub p t fs := by
  funext q
  unfold setSub rmSub
  cases h : dropPref p q with
  | none => simp [h]
  | some rest => simp [h]

theorem rmSub_idem (p : List String) (fs : FSTree) :
    rmSub p (rmSub p fs) = rmSub p fs := by
  funext q
  unfold rmSub
  split <;> rfl

theorem rmSub_setSub (p : List String) (t fs : FSTree) :
    rmSub p (setSub p t fs) = rmSub p fs := by
  funext q
  unfold rmSub setSub
  cases h : dropPref p q with
  | none => simp [h]
  | some rest => simp [h]

/-- `mkdir -p` does nothing when every prefix of the path is occupied. -/
theorem mkdirP_noop (path : List String) (fs : FSTree)
    (h : ∀ q ∈ path.inits, fs q ≠ none) : mkdirP path fs = fs := by
  funext q
  unfold mkdirP
  cases hq : fs q with
  | some n => rfl
  | none =>
    split_ifs with hi
    · exact absurd hq (h q hi)
    · rfl

theorem call_events (env : Env) (st : OrcState) (e : Event) :
    (call env st e).1.events = st.events ++ [e] := rfl

theorem call_result (env : Env) (st : OrcState) (e : Event) :
    (call env st e).2 = env.oracle st.events e := rfl

/-- C10: in `_sync_app` the result of the `rm -rf` of the prior remote
copy is discarded: whatever that command returns — in particular when it
fails — the step proceeds directly to the recursive copy, and its success
flag reflects only the parent `mkdir` and the copy. -/
theorem sync_rm_discarded (env : Env) (st : OrcState) (d app : String)
    (hl : (env.localFS (joinPath d app)).isSome = true)
    (hmk : ∀ hist, (env.oracle hist (.exec mkdirCmd)).success = true)
    (hrm : ∀ hist, (env.oracle hist (.exec (rmCmd app))).success = false)
    (hcp : ∀ hist,
      (env.oracle hist (.copy (joinPath d app) appsParent true)).success = true) :
    (syncApp env st d app).2 = true ∧
    (syncApp env st d app).1.events =
      st.events ++ [.exec mkdirCmd, .exec (rmCmd app),
        .copy (joinPath d app) appsParent true] := by
  obtain ⟨t, ht⟩ := Option.isSome_iff_exists.mp hl
  unfold syncApp sshExecOp scpOp
  rw [ht]
  simp [call_events, call_result, hmk, hrm, hcp]

/-- A fully populated modelled tree. -/
def constTree : FSTree := fun _ => some FSNode.dir

/-- An oracle that fails exactly the prior-copy removal of one app. -/
def rmFailOracle (app : String) : List Event → Event → RemoteResult := fun _ e =>
  if e = .exec (rmCmd app) then ⟨false, "", "rm failed"⟩ else ⟨true, "", ""⟩

/-- An environment in which `app1`'s removal fails but everything else
succeeds. -/
def c10Env : Env where
  oracle := rmFailOracle "app1"
  cfg := {}
  configExists := true
  localFS := fun p => if p = "/apps/app1" then some constTree else none
  findAppsDir := some "/apps"
  fs0 := fun _ => none

/-- Witness for C10: with the removal failing, the sync step still
succeeds, and its trace shows the copy issued right after the ignored
removal. -/
theorem sync_rm_discarded_witness :
    (syncApp c10Env ⟨[], c10Env.fs0⟩ "/apps" "app1").2 = true ∧
    (syncApp c10Env ⟨[], c10Env.fs0⟩ "/apps" "app1").1.events =
      [.exec mkdirCmd, .exec (rmCmd "app1"),
       .copy (joinPath "/apps" "app1") appsParent true] :=
  sync_rm_discarded c10Env ⟨[], c10Env.fs0⟩ "/apps" "app1"
    (by decide) (fun _ => rfl) (fun _ => rfl) (fun _ => rfl)

/-! ## Semantics of the generated deploy script (C7)

`build_deploy_script` produces a fixed `set -e` script; its behaviour on
a remote application directory is modelled here as a function of that
directory's observable state.  Each `echo` contributes a line of output,
and under `set -e` the first failing command ends the script with a
non-zero exit. -/

/-- The observable state of the remote app directory, plus the exit
behaviour of the external commands the script may run. -/
structure RemoteDirState where
  dirExists : Bool
  files : List String
  hasGitDir : Bool
  hookExitZero : Bool
  gitPullExitZero : Bool
  composeUpExitZero : Bool
  composePsExitZero : Bool
deriving DecidableEq, Repr

/-- The four accepted compose file names, in the order the script tests
them. -/
def composeFileNames : List String :=
  ["docker-compose.yml", "docker-compose.yaml", "compose.yml", "compose.yaml"]

/-- What a run of the script produces. -/
structure ScriptRun where
  exitZero : Bool
  output : List String
deriving DecidableEq, Repr

/-- Modelled execution of the script `build_deploy_script app_dir` on a
directory in state `d`: `cd` (fails when the directory is missing), the
hook / ff-only-pull / skip alternatives, the compose-file check, then
`docker compose up -d --build` and `docker compose ps`. -/
def deployScriptSem (appDir : String) (d : RemoteDirState) : ScriptRun :=
  if !d.dirExists then ⟨false, []⟩
  else
    let step1 : List String × Bool :=
      if "deploy.sh" ∈ d.files then
        (["Running pre-deploy hook: ./deploy.sh"], d.hookExitZero)
      else if d.hasGitDir then
        (["Updating git checkout (ff-only)..."], d.gitPullExitZero)
      else
        (["No deploy.sh or .git found; skipping source update."], true)
    if !step1.2 then ⟨false, step1.1⟩
    else if composeFileNames.all (fun n => !(d.files.contains n)) then
      ⟨false, step1.1 ++ ["Error: No compose file found in " ++ appDir]⟩
    else
      let out2 := step1.1 ++ ["Running docker compose up -d --build..."]
      if !d.composeUpExitZero then ⟨false, out2⟩
      else
        let out3 := out2 ++ ["Deployment complete. Running containers:"]
        if !d.composePsExitZero then ⟨false, out3⟩ else ⟨true, out3⟩

/-- C7: on an app directory with no `deploy.sh` hook, no `.git` checkout
and none of the four accepted compose file names, the generated deploy
script exits non-zero after printing the "No compose file found" error;
and a deploy step whose script execution reports failure reports
failure itself. -/
theorem deploy_no_compose_file (appDir : String) (d : RemoteDirState)
    (h1 : d.dirExists = true)
    (h2 : "deploy.sh" ∉ d.files)
    (h3 : d.hasGitDir = false)
    (h4 : ∀ n ∈ composeFileNames, n ∉ d.files) :
    (deployScriptSem appDir d).exitZero = false ∧
    ("Error: No compose file found in " ++ appDir) ∈ (deployScriptSem appDir d).output ∧
    (∀ (env : Env) (st : OrcState) (app : String),
      (env.oracle st.events (.exec (build_deploy_script (deployPath app)))).success
        = false →
      (deployApp env st app).2 = false) := by
  refine ⟨?_, ?_, ?_⟩
  · simp [deployScriptSem, h1, h2, h3]
    rw [if_pos h4]
  · simp [deployScriptSem, h1, h2, h3]
    rw [if_pos h4]
    simp
  · intro env st app h
    simpa [deployApp, sshExecOp, call_result] using h

/-- An oracle on which every remote call fails. -/
def allFailOracle : List Event → Event → RemoteResult := fun _ _ => ⟨false, "", ""⟩

/-- An environment whose remote host rejects everything. -/
def c7Env : Env where
  oracle := allFailOracle
  cfg := {}
  configExists := true
  localFS := fun _ => none
  findAppsDir := none
  fs0 := fun _ => none

/-! ## The pre-flight gate of `setup` (C3, C9) -/

/-- A requested app with no local directory makes the validation loop fail. -/
theorem validateApps_false (env : Env) (d : String) :
    ∀ l : List String, (∃ a ∈ l, env.localFS (joinPath d a) = none) →
      validateApps env d l = false
  | [], h => by simp at h
  | a :: rest, h => by
    unfold validateApps
    by_cases hx : (env.localFS (joinPath d a)).isSome
    · rw [if_pos hx]
      apply validateApps_false env d rest
      rcases h with ⟨b, hb, hmiss⟩
      rcases List.mem_cons.mp hb with rfl | hb2
      · rw [hmiss] at hx
        simp at hx
      · exact ⟨b, hb2, hmiss⟩
    · rw [if_neg hx]

/-- A fully locally-present app list passes the validation loop. -/
theorem validateApps_true (env : Env) (d : String) :
    ∀ l : List String, (∀ a ∈ l, (env.localFS (joinPath d a)).isSome = true) →
      validateApps env d l = true
  | [], _ => rfl
  | a :: rest, h => by
    unfold validateApps
    rw [if_pos (h a (List.mem_cons_self a rest))]
    exact validateApps_true env d rest fun b hb => h b (List.mem_cons_of_mem a hb)

/-- Whatever `_check_vm_running` does, the only transport call it can
issue is the read-only connectivity probe. -/
theorem checkVmRunning_events (env : Env) (st : OrcState) :
    ∃ tail, (checkVmRunning env st).1.events = st.events ++ tail ∧
      ∀ e ∈ tail, isTransport e = true → e = Event.exec "echo ok" := by
  unfold checkVmRunning sshExecOp vmExists vmStatus
  by_cases hd : use_direct_ssh env.cfg
  · refine ⟨[Event.exec "echo ok"], ?_, ?_⟩
    · simp [hd, call_events]
    · intro e he _
      simpa using he
  · simp only [hd, Bool.false_eq_true, if_false]
    cases hb : (env.oracle st.events (describeEvent env.cfg)).success
    · refine ⟨[describeEvent env.cfg], ?_, ?_⟩
      · simp [call, hb]
      · intro e he htr
        rcases List.mem_singleton.mp he with rfl
        simp [isTransport, describeEvent] at htr
    · refine ⟨[describeEvent env.cfg, statusEvent env.cfg], ?_, ?_⟩
      · cases hb2 : (env.oracle (st.events ++ [describeEvent env.cfg])
          (statusEvent env.cfg)).success <;>
          simp [call, hb, hb2, List.append_assoc]
      · intro e he htr
        rcases List.mem_cons.mp he with rfl | he2
        · simp [isTransport, describeEvent] at htr
        · rcases List.mem_singleton.mp he2 with rfl
          simp [isTransport, statusEvent] at htr

/-- C3 (amended): when a requested app has no local directory, `setup`
aborts (non-zero exit) and performs no remote mutation: no transport copy
at all, and the only transport exec that can precede the abort is the
read-only `echo ok` connectivity probe of the direct-SSH mode (in proxied
mode, no transport call at all). -/
theorem setup_preflight_gate (env : Env) (apps apps_dir : Option String)
    (skip : Bool) (repo : Option String) (d : String)
    (hdir : (if optTruthy apps_dir then apps_dir else env.findAppsDir) = some d)
    (hmiss : ∃ a ∈ parse_apps apps, env.localFS (joinPath d a) = none) :
    (setup env apps apps_dir skip repo).exit = .aborted ∧
    ∀ e ∈ (setup env apps apps_dir skip repo).events,
      isTransport e = true → e = Event.exec "echo ok" := by
  unfold setup
  by_cases hc : env.configExists
  case neg =>
    simp [hc]
  case pos =>
    obtain ⟨tail, htl, htr⟩ := checkVmRunning_events env ⟨[], env.fs0⟩
    rcases hcvr : checkVmRunning env ⟨[], env.fs0⟩ with ⟨st, b⟩
    rw [hcvr] at htl
    have hst : st.events = tail := by simpa using htl
    simp only [hc, Bool.not_true, Bool.false_eq_true, if_false, hcvr]
    cases b
    · refine ⟨rfl, ?_⟩
      intro e he
      exact htr e (hst ▸ he)
    · rw [hdir]
      have hval := validateApps_false env d _ hmiss
      simp only [hval, Bool.not_false, if_true]
      exact ⟨trivial, fun e he => htr e (hst ▸ he)⟩

/-- An oracle on which every remote call succeeds with empty output. -/
def allOkOracle : List Event → Event → RemoteResult := fun _ _ => ⟨true, "", ""⟩

/-- A direct-SSH environment with no local app directories at all. -/
def c3Env : Env where
  oracle := allOkOracle
  cfg := { ssh_host := some "10.0.0.5" }
  configExists := true
  localFS := fun _ => none
  findAppsDir := none
  fs0 := fun _ => none

/-- C3 counterexample: in direct-SSH mode a missing requested app still
aborts the run, but one transport exec — the `echo ok` connectivity
probe — has already been performed, so "zero transport exec or copy
calls" is false as stated. -/
theorem setup_preflight_counterexample :
    (setup c3Env (some "missing-app") (some "/apps") true none).exit = .aborted ∧
    (setup c3Env (some "missing-app") (some "/apps") true none).events =
      [Event.exec "echo ok"] ∧
    isTransport (Event.exec "echo ok") = true ∧
    parse_apps (some "missing-app") = ["missing-app"] ∧
    c3Env.localFS (joinPath "/apps" "missing-app") = none := by
  refine ⟨by decide, by decide, by decide, by decide, rfl⟩

/-- An oracle answering every gcloud query with a RUNNING status. -/
def runningOracle : List Event → Event → RemoteResult := fun _ e =>
  match e with
  | .gcloud _ => ⟨true, "RUNNING", ""⟩
  | _ => ⟨true, "", ""⟩

/-- A proxied-mode environment with no local app directories. -/
def c3ProxyEnv : Env where
  oracle := runningOracle
  cfg := {}
  configExists := true
  localFS := fun _ => none
  findAppsDir := some "/apps"
  fs0 := fun _ => none

/-- Witness for C3 (amended) in proxied mode at a concrete environment. -/
theorem setup_preflight_gate_witness :
    (setup c3ProxyEnv (some "missing-app") none false none).exit = .aborted :=
  (setup_preflight_gate c3ProxyEnv (some "missing-app") none false none "/apps"
    (by decide) ⟨"missing-app", by decide, rfl⟩).1

/-- `strip()` of the empty string. -/
theorem pyStripS_empty : pyStripS "" = "" := rfl

set_option maxHeartbeats 1600000 in
/-- C9: an `--apps` value whose comma-separated entries are all empty
(such as `","`) parses to the empty app list — the default pair is not
substituted — yet the run still performs the VM check, the provisioning
step and the directory bootstrap, syncs and deploys nothing, and exits
successfully. -/
theorem setup_empty_apps (env : Env) (d : String) (repo : Option String)
    (hconf : env.configExists = true)
    (hsucc : ∀ hist e, (env.oracle hist e).success = true)
    (hrun : ∀ hist, (env.oracle hist (statusEvent env.cfg)).stdout = "RUNNING")
    (hdock : ∀ hist, (env.oracle hist (.exec "command -v docker")).stdout = "")
    (hd : d ≠ "") :
    parse_apps (some ",") = [] ∧
    (setup env (some ",") (some d) false repo).exit = .ok ∧
    (setup env (some ",") (some d) false repo).events =
      (if use_direct_ssh env.cfg then [Event.exec "echo ok"]
       else [describeEvent env.cfg, statusEvent env.cfg]) ++
      [Event.exec "command -v docker", Event.exec setupProvisionScript,
       Event.exec moltScript] := by
  have hpa : parse_apps (some ",") = [] := rfl
  refine ⟨hpa, ?_⟩
  by_cases hdct : use_direct_ssh env.cfg <;>
    simp [setup, checkVmRunning, vmExists, vmStatus, provisionPhase, moltPhase,
      gatewayRepoPhase, appsLoop, validateApps, sshExecOp, call, hconf, hdct,
      hsucc, hrun, hdock, hpa, hd, optTruthy, pyStripS_empty, List.append_assoc]

/-- A proxied environment with a running VM and empty probe output. -/
def c9Env : Env where
  oracle := runningOracle
  cfg := {}
  configExists := true
  localFS := fun _ => none
  findAppsDir := none
  fs0 := fun _ => none

/-- Witness for C9 at a concrete proxied environment. -/
theorem setup_empty_apps_witness :
    parse_apps (some ",") = [] ∧
    (setup c9Env (some ",") (some "/apps") false none).exit = .ok := by
  have h := setup_empty_apps c9Env "/apps" none rfl
    (fun _ e => by cases e <;> rfl) (fun _ => rfl) (fun _ => rfl) (by decide)
  exact ⟨h.1, h.2.1⟩

/-! ## Non-fatal post-hooks (C8) -/

/-- Under a transport that accepts every exec and copy, `_sync_app`
succeeds for a locally present app. -/
theorem syncApp_success (env : Env) (st : OrcState) (d a : String)
    (htrans : ∀ hist e, isTransport e = true → (env.oracle hist e).success = true)
    (hl : (env.localFS (joinPath d a)).isSome = true) :
    (syncApp env st d a).2 = true := by
  have hexec : ∀ hist c, (env.oracle hist (Event.exec c)).success = true :=
    fun h c => htrans h _ rfl
  have hcopy : ∀ hist s dst r, (env.oracle hist (Event.copy s dst r)).success = true :=
    fun h s dst r => htrans h _ rfl
  obtain ⟨t, ht⟩ := Option.isSome_iff_exists.mp hl
  unfold syncApp sshExecOp scpOp
  rw [ht]
  simp [call_result, hexec, hcopy]

/-- Under such a transport `_deploy_app` succeeds. -/
theorem deployApp_success (env : Env) (st : OrcState) (a : String)
    (htrans : ∀ hist e, isTransport e = true → (env.oracle hist e).success = true) :
    (deployApp env st a).2 = true := by
  unfold deployApp sshExecOp
  exact htrans _ _ rfl

/-- Under such a transport the whole per-app loop succeeds whenever every
listed app exists locally. -/
theorem appsLoop_success (env : Env) (d : String)
    (htrans : ∀ hist e, isTransport e = true → (env.oracle hist e).success = true)
    (l : List String) :
    ∀ st : OrcState, (∀ a ∈ l, (env.localFS (joinPath d a)).isSome = true) →
      (appsLoop env d st l).2 = true := by
  induction l with
  | nil => intro st _; rfl
  | cons a rest ih =>
    intro st hl
    unfold appsLoop
    rcases hs : syncApp env st d a with ⟨st1, b1⟩
    have hb1 : b1 = true := by
      have := syncApp_success env st d a htrans (hl a (List.mem_cons_self a rest))
      rw [hs] at this
      exact this
    subst hb1
    simp only []
    rcases hdep : deployApp env st1 a with ⟨st2, b2⟩
    have hb2 : b2 = true := by
      have := deployApp_success env st1 a htrans
      rw [hdep] at this
      exact this
    subst hb2
    simp only []
    exact ih (postHooks env st2 a) fun b hb => hl b (List.mem_cons_of_mem a hb)

/-- The provisioning phase succeeds under an accepting transport. -/
theorem provisionPhase_success (env : Env) (st : OrcState) (skip : Bool)
    (htrans : ∀ hist e, isTransport e = true → (env.oracle hist e).success = true) :
    (provisionPhase env st skip).2 = true := by
  have hexec : ∀ hist c, (env.oracle hist (Event.exec c)).success = true :=
    fun h c => htrans h _ rfl
  unfold provisionPhase sshExecOp
  cases skip
  · simp only [Bool.false_eq_true, if_false]
    split
    · rfl
    · simp [call_result, hexec]
  · rfl

/-- The directory-bootstrap phase succeeds under an accepting transport. -/
theorem moltPhase_success (env : Env) (st : OrcState)
    (htrans : ∀ hist e, isTransport e = true → (env.oracle hist e).success = true) :
    (moltPhase env st).2 = true := by
  unfold moltPhase sshExecOp
  exact htrans _ _ rfl

/-- The gateway-repo phase succeeds under an accepting transport. -/
theorem gatewayRepoPhase_success (env : Env) (st : OrcState)
    (app_list : List String) (repo : Option String)
    (htrans : ∀ hist e, isTransport e = true → (env.oracle hist e).success = true) :
    (gatewayRepoPhase env st app_list repo).2 = true := by
  have hcopy : ∀ hist s dst r, (env.oracle hist (Event.copy s dst r)).success = true :=
    fun h s dst r => htrans h _ rfl
  unfold gatewayRepoPhase syncGatewayRepo sshExecOp scpOp
  split
  · cases hf : env.localFS (repo.getD "/workspace/openclaw-gateway") with
    | some t => simp [hf, call_result, hcopy]
    | none => simp [hf]
  · rfl

set_option maxHeartbeats 800000 in
/-- C8: a missing or empty remote secrets file and failing IAM role
grants are non-fatal.  In a run whose transport accepts every exec and
copy, whose secrets probe reports MISSING, and whose `add-iam-policy-binding`
calls all fail, `setup` still completes with a success exit — the
results of the secrets check and of the grant attempt are discarded. -/
theorem setup_nonfatal_posthooks (env : Env) (apps apps_dir : Option String)
    (skip : Bool) (repo : Option String) (d : String)
    (hconf : env.configExists = true)
    (hssh : use_direct_ssh env.cfg = true)
    (htrans : ∀ hist e, isTransport e = true → (env.oracle hist e).success = true)
    (hdir : (if optTruthy apps_dir then apps_dir else env.findAppsDir) = some d)
    (happs : ∀ a ∈ parse_apps apps, (env.localFS (joinPath d a)).isSome = true)
    (hsecrets : ∀ hist, (env.oracle hist (.exec secretsCheckScript)).stdout = "MISSING")
    (hbind : ∀ hist sa role,
      (env.oracle hist (bindEvent (orEmpty env.cfg.project) sa role)).success = false) :
    (setup env apps apps_dir skip repo).exit = .ok := by
  unfold setup
  simp only [hconf, Bool.not_true, Bool.false_eq_true, if_false]
  rcases h1 : checkVmRunning env ⟨[], env.fs0⟩ with ⟨st, b⟩
  have hb : b = true := by
    have h2 : (checkVmRunning env ⟨[], env.fs0⟩).2 = true := by
      unfold checkVmRunning sshExecOp
      simp only [hssh, if_true]
      exact htrans _ _ rfl
    rw [h1] at h2
    exact h2
  subst hb
  simp only [hdir]
  rw [validateApps_true env d _ happs]
  simp only [Bool.not_true, Bool.false_eq_true, if_false]
  rcases h3 : provisionPhase env st skip with ⟨st2, b2⟩
  have hb2 : b2 = true := by
    have := provisionPhase_success env st skip htrans
    rw [h3] at this
    exact this
  subst hb2
  simp only []
  rcases h4 : moltPhase env st2 with ⟨st3, b3⟩
  have hb3 : b3 = true := by
    have := moltPhase_success env st2 htrans
    rw [h4] at this
    exact this
  subst hb3
  simp only []
  rcases h5 : gatewayRepoPhase env st3 (parse_apps apps) repo with ⟨st4, b4⟩
  have hb4 : b4 = true := by
    have := gatewayRepoPhase_success env st3 (parse_apps apps) repo htrans
    rw [h5] at this
    exact this
  subst hb4
  simp only []
  rcases h6 : appsLoop env d st4 (parse_apps apps) with ⟨st5, b5⟩
  have hb5 : b5 = true := by
    have := appsLoop_success env d htrans (parse_apps apps) st4 happs
    rw [h6] at this
    exact this
  subst hb5
  rfl

/-- An oracle that accepts transport calls, reports a MISSING secrets
file, answers the service-account lookup, and rejects every IAM
role-binding attempt. -/
def c8Oracle : List Event → Event → RemoteResult := fun _ e =>
  match e with
  | .gcloud args =>
    if "add-iam-policy-binding" ∈ args then ⟨false, "", "permission denied"⟩
    else ⟨true, "svc@proj.iam.gserviceaccount.com", ""⟩
  | .exec c => if c = secretsCheckScript then ⟨true, "MISSING", ""⟩ else ⟨true, "", ""⟩
  | .copy _ _ _ => ⟨true, "", ""⟩

/-- A direct-SSH environment with every local app present, a configured
project, and the `c8Oracle` remote behaviour. -/
def c8Env : Env where
  oracle := c8Oracle
  cfg := { ssh_host := some "10.0.0.5", project := some "proj" }
  configExists := true
  localFS := fun _ => some constTree
  findAppsDir := some "/apps"
  fs0 := fun _ => none

/-- Witness for C8: the default app pair (so the gateway hooks fire),
secrets MISSING, grants denied — and the run exits successfully. -/
theorem setup_nonfatal_posthooks_witness :
    (setup c8Env none none true none).exit = .ok := by
  apply setup_nonfatal_posthooks c8Env none none true none "/apps" rfl rfl
  · intro hist e he
    cases e with
    | exec c =>
      show (c8Oracle hist (Event.exec c)).success = true
      simp only [c8Oracle]
      split <;> rfl
    | copy src dst r => rfl
    | gcloud args => simp [isTransport] at he
  · rfl
  · intro a _
    rfl
  · intro hist
    show (c8Oracle hist (Event.exec secretsCheckScript)).stdout = "MISSING"
    simp only [c8Oracle]
    simp
  · intro hist sa role
    show (c8Oracle hist (bindEvent (orEmpty c8Env.cfg.project) sa role)).success = false
    simp only [c8Oracle, bindEvent]
    rw [if_pos (List.mem_cons_of_mem _ (List.mem_cons_self _ _))]

/-- Witness for C7: a directory with unrelated files only, and a deploy
step against a failing script execution. -/
theorem deploy_no_compose_file_witness :
    (deployScriptSem "/srv/vmctl/apps/workstation"
      ⟨true, ["README.md"], false, true, true, true, true⟩).exitZero = false ∧
    ("Error: No compose file found in /srv/vmctl/apps/workstation") ∈
      (deployScriptSem "/srv/vmctl/apps/workstation"
        ⟨true, ["README.md"], false, true, true, true, true⟩).output ∧
    (deployApp c7Env ⟨[], c7Env.fs0⟩ "workstation").2 = false := by
  have h := deploy_no_compose_file "/srv/vmctl/apps/workstation"
    ⟨true, ["README.md"], false, true, true, true, true⟩
    (by decide) (by decide) (by decide) (by decide)
  refine ⟨h.1, ?_, h.2.2 c7Env ⟨[], c7Env.fs0⟩ "workstation" rfl⟩
  have h2 := h.2.1
  simpa using h2

/-! ## Per-app ordering and abort (C4) -/

/-- The three transport events one successful `_sync_app` issues, in
order. -/
def syncEvents (appsDir a : String) : List Event :=
  [.exec mkdirCmd, .exec (rmCmd a), .copy (joinPath appsDir a) appsParent true]

/-- The single exec of `_deploy_app`. -/
def deployEvent (a : String) : Event := .exec (build_deploy_script (deployPath a))

/-- Events the gateway post-hooks may issue: the secrets probe and
gcloud control-plane calls. -/
def isHookEvent : Event → Bool
  | .exec s => s == secretsCheckScript
  | .gcloud _ => true
  | .copy _ _ _ => false

/-- A transport event belonging to app `c`: its prior-copy removal, its
deploy-script exec, or its recursive copy. -/
def isCallFor (appsDir c : String) : Event → Bool
  | .exec s => s == rmCmd c || s == build_deploy_script (deployPath c)
  | .copy src _ _ => src == joinPath appsDir c
  | .gcloud _ => false

theorem take2_ne (s u : String) (h : ¬ s.data.take 2 = u.data.take 2) : ¬ s = u :=
  fun he => h (by rw [he])

theorem take2_mkdirCmd : mkdirCmd.data.take 2 = ['m', 'k'] := rfl

theorem take2_rmCmd (x : String) : (rmCmd x).data.take 2 = ['r', 'm'] := by
  simp only [rmCmd, String.data_append]
  rfl

theorem take2_deploy (x : String) : (build_deploy_script x).data.take 2 = ['\n', 's'] := by
  simp only [build_deploy_script, String.data_append]
  rfl

theorem take2_secrets : secretsCheckScript.data.take 2 = ['\n', ' '] := rfl

/-- The generated deploy script determines the app directory. -/
theorem build_deploy_script_inj {x y : String}
    (h : build_deploy_script x = build_deploy_script y) : x = y := by
  have hd := congrArg String.data h
  simp only [build_deploy_script, String.data_append, List.append_assoc] at hd
  have hlen : x.data.length = y.data.length := by
    have hl := congrArg List.length hd
    simp only [List.length_append] at hl
    omega
  exact string_data_inj (List.append_inj (List.append_cancel_left hd) hlen).1

theorem deployEvent_inj {a c : String} (h : deployEvent a = deployEvent c) : a = c :=
  string_append_left_cancel (build_deploy_script_inj (Event.exec.inj h))

theorem rmCmd_inj {a c : String} (h : rmCmd a = rmCmd c) : a = c :=
  string_append_left_cancel h

theorem joinPath_inj {d a c : String} (h : joinPath d a = joinPath d c) : a = c :=
  string_append_left_cancel h

theorem callFor_exec_false {appsDir c s : String}
    (h1 : ¬ s = rmCmd c) (h2 : ¬ s = build_deploy_script (deployPath c)) :
    isCallFor appsDir c (Event.exec s) = false := by
  show (s == rmCmd c || s == build_deploy_script (deployPath c)) = false
  rw [beq_eq_false_iff_ne.mpr h1, beq_eq_false_iff_ne.mpr h2]
  rfl

theorem hook_not_call (appsDir c : String) (e : Event) (h : isHookEvent e = true) :
    isCallFor appsDir c e = false := by
  cases e with
  | exec s =>
    have hs : s = secretsCheckScript := by simpa [isHookEvent] using h
    subst hs
    exact callFor_exec_false
      (take2_ne _ _ (by rw [take2_secrets, take2_rmCmd]; decide))
      (take2_ne _ _ (by rw [take2_secrets, take2_deploy]; decide))
  | copy src dst r => simp [isHookEvent] at h
  | gcloud args => rfl

theorem callFor_deployEvent {appsDir c x : String} (hxc : ¬ x = c) :
    isCallFor appsDir c (deployEvent x) = false :=
  callFor_exec_false
    (take2_ne _ _ (by rw [take2_deploy, take2_rmCmd]; decide))
    (fun h => hxc (string_append_left_cancel (build_deploy_script_inj h)))

theorem callFor_syncEvents {appsDir c x : String} (hxc : ¬ x = c) :
    ∀ e ∈ syncEvents appsDir x, isCallFor appsDir c e = false := by
  intro e he
  simp [syncEvents] at he
  rcases he with rfl | rfl | rfl
  · exact callFor_exec_false
      (take2_ne _ _ (by rw [take2_mkdirCmd, take2_rmCmd]; decide))
      (take2_ne _ _ (by rw [take2_mkdirCmd, take2_deploy]; decide))
  · exact callFor_exec_false
      (fun h => hxc (rmCmd_inj h))
      (take2_ne _ _ (by rw [take2_rmCmd, take2_deploy]; decide))
  · show (joinPath appsDir x == joinPath appsDir c) = false
    exact beq_eq_false_iff_ne.mpr (fun h => hxc (joinPath_inj h))

/-- One successful `_sync_app`: its trace extension and its result. -/
theorem syncApp_trace (env : Env) (st : OrcState) (appsDir x : String)
    (hl : (env.localFS (joinPath appsDir x)).isSome = true)
    (hmk : ∀ hist, (env.oracle hist (Event.exec mkdirCmd)).success = true)
    (hcp : ∀ hist,
      (env.oracle hist (Event.copy (joinPath appsDir x) appsParent true)).success = true) :
    (syncApp env st appsDir x).1.events = st.events ++ syncEvents appsDir x ∧
    (syncApp env st appsDir x).2 = true := by
  obtain ⟨t, ht⟩ := Option.isSome_iff_exists.mp hl
  unfold syncApp sshExecOp scpOp
  rw [ht]
  simp [call_events, call_result, hmk, hcp, syncEvents]

/-- `_deploy_app`: its trace extension and its result. -/
theorem deployApp_trace (env : Env) (st : OrcState) (x : String) :
    (deployApp env st x).1.events = st.events ++ [deployEvent x] ∧
    (deployApp env st x).2 = (env.oracle st.events (deployEvent x)).success :=
  ⟨rfl, rfl⟩

/-- `_grant_bigquery_permissions` only issues gcloud control-plane
calls. -/
theorem grant_trace (env : Env) (st : OrcState) (P vm z : String) :
    ∃ hk, (grantBigqueryPermissions env st P vm z).1.events = st.events ++ hk ∧
      ∀ e ∈ hk, isHookEvent e = true := by
  simp only [grantBigqueryPermissions]
  split
  · exact ⟨[saDescribeEvent P vm z], rfl, by intro e he; simp at he; subst he; rfl⟩
  · split
    · exact ⟨[saDescribeEvent P vm z], rfl, by intro e he; simp at he; subst he; rfl⟩
    · refine ⟨[saDescribeEvent P vm z,
        bindEvent P (pyStripS (call env st (saDescribeEvent P vm z)).2.stdout)
          "roles/bigquery.dataEditor",
        bindEvent P (pyStripS (call env st (saDescribeEvent P vm z)).2.stdout)
          "roles/bigquery.jobUser"], ?_, ?_⟩
      · simp [call_events]
      · intro e he
        simp at he
        rcases he with rfl | rfl | rfl <;> rfl

/-- The per-app post-hooks extend the trace by hook events only. -/
theorem postHooks_trace (env : Env) (st : OrcState) (x : String) :
    ∃ hk, (postHooks env st x).events = st.events ++ hk ∧
      ∀ e ∈ hk, isHookEvent e = true := by
  unfold postHooks
  by_cases hg : x = "openclaw-gateway"
  · rw [if_pos hg]
    by_cases hp : optTruthy env.cfg.project
    · rw [if_pos hp]
      obtain ⟨hk, he, hh⟩ := grant_trace env (checkAgentSecrets env st)
        (orEmpty env.cfg.project) env.cfg.vm_name env.cfg.zone
      refine ⟨Event.exec secretsCheckScript :: hk, ?_, ?_⟩
      · rw [he]
        have hc : (checkAgentSecrets env st).events =
            st.events ++ [Event.exec secretsCheckScript] := rfl
        rw [hc, List.append_assoc]
        rfl
      · intro e he2
        rcases List.mem_cons.mp he2 with rfl | hm
        · simp [isHookEvent]
        · exact hh e hm
    · rw [if_neg hp]
      refine ⟨[Event.exec secretsCheckScript], rfl, ?_⟩
      intro e he2
      rw [List.mem_singleton.mp he2]
      simp [isHookEvent]
  · rw [if_neg hg]
    exact ⟨[], (List.append_nil st.events).symm, by intro e he2; simp at he2⟩

/-- One loop iteration whose sync and deploy succeed: the loop proceeds
to the rest from a state extended by the app's calls and its hooks. -/
theorem appStep_trace (env : Env) (appsDir x : String) (S : OrcState)
    (hl : (env.localFS (joinPath appsDir x)).isSome = true)
    (hmk : ∀ hist, (env.oracle hist (Event.exec mkdirCmd)).success = true)
    (hcp : ∀ hist,
      (env.oracle hist (Event.copy (joinPath appsDir x) appsParent true)).success = true)
    (hdp : ∀ hist, (env.oracle hist (deployEvent x)).success = true)
    (rest : List String) :
    ∃ S2 hk, appsLoop env appsDir S (x :: rest) = appsLoop env appsDir S2 rest ∧
      S2.events = S.events ++ syncEvents appsDir x ++ [deployEvent x] ++ hk ∧
      ∀ e ∈ hk, isHookEvent e = true := by
  obtain ⟨hev, hsc⟩ := syncApp_trace env S appsDir x hl hmk hcp
  rcases hs : syncApp env S appsDir x with ⟨st1, b1⟩
  rw [hs] at hev hsc
  simp only [] at hev hsc
  subst hsc
  obtain ⟨hdev, -⟩ := deployApp_trace env st1 x
  have hds : (deployApp env st1 x).2 = true := by
    rw [(deployApp_trace env st1 x).2]
    exact hdp _
  rcases hd : deployApp env st1 x with ⟨st2, b2⟩
  rw [hd] at hdev hds
  simp only [] at hdev hds
  subst hds
  obtain ⟨hk, hpe, hpp⟩ := postHooks_trace env st2 x
  refine ⟨postHooks env st2 x, hk, ?_, ?_, hpp⟩
  · simp only [appsLoop]
    rw [hs]
    simp only []
    rw [hd]
  · rw [hpe, hdev, hev]

/-- One loop iteration whose sync succeeds but whose deploy fails: the
loop stops right after the failing deploy. -/
theorem appStep_fail (env : Env) (appsDir x : String) (S : OrcState)
    (hl : (env.localFS (joinPath appsDir x)).isSome = true)
    (hmk : ∀ hist, (env.oracle hist (Event.exec mkdirCmd)).success = true)
    (hcp : ∀ hist,
      (env.oracle hist (Event.copy (joinPath appsDir x) appsParent true)).success = true)
    (hdp : ∀ hist, (env.oracle hist (deployEvent x)).success = false)
    (rest : List String) :
    (appsLoop env appsDir S (x :: rest)).2 = false ∧
    (appsLoop env appsDir S (x :: rest)).1.events =
      S.events ++ syncEvents appsDir x ++ [deployEvent x] := by
  obtain ⟨hev, hsc⟩ := syncApp_trace env S appsDir x hl hmk hcp
  rcases hs : syncApp env S appsDir x with ⟨st1, b1⟩
  rw [hs] at hev hsc
  simp only [] at hev hsc
  subst hsc
  obtain ⟨hdev, -⟩ := deployApp_trace env st1 x
  have hds : (deployApp env st1 x).2 = false := by
    rw [(deployApp_trace env st1 x).2]
    exact hdp _
  rcases hd : deployApp env st1 x with ⟨st2, b2⟩
  rw [hd] at hdev hds
  simp only [] at hdev hds
  subst hds
  constructor
  · simp only [appsLoop]
    rw [hs]
    simp only []
    rw [hd]
  · simp only [appsLoop]
    rw [hs]
    simp only []
    rw [hd]
    simp only []
    rw [hdev, hev]

set_option maxHeartbeats 1600000 in
/-- C4: the per-app loop of `setup` issues each app's sync calls then its
deploy call in exactly the list order, with only the gateway post-hooks
interleaved after a deploy; and when the second app's deploy fails, the
loop reports failure with the trace ending at that failing deploy — in
particular no removal, copy or deploy call for the third app occurs. -/
theorem setup_app_order (env : Env) (appsDir : String) (st : OrcState)
    (a b c : String) (hab : ¬ a = b) (hca : ¬ c = a) (hcb : ¬ c = b)
    (hla : (env.localFS (joinPath appsDir a)).isSome = true)
    (hlb : (env.localFS (joinPath appsDir b)).isSome = true)
    (hlc : (env.localFS (joinPath appsDir c)).isSome = true)
    (hst : ∀ e ∈ st.events, isCallFor appsDir c e = false) :
    ((∀ hist e, isTransport e = true → (env.oracle hist e).success = true) →
      ∃ h1 h2 h3 : List Event,
        (appsLoop env appsDir st [a, b, c]).1.events =
          st.events ++ syncEvents appsDir a ++ [deployEvent a] ++ h1 ++
            syncEvents appsDir b ++ [deployEvent b] ++ h2 ++
            syncEvents appsDir c ++ [deployEvent c] ++ h3) ∧
    ((∀ hist, (env.oracle hist (deployEvent b)).success = false) →
     (∀ hist e, isTransport e = true → ¬ e = deployEvent b →
        (env.oracle hist e).success = true) →
      (appsLoop env appsDir st [a, b, c]).2 = false ∧
      (∃ h1 : List Event,
        (appsLoop env appsDir st [a, b, c]).1.events =
          st.events ++ syncEvents appsDir a ++ [deployEvent a] ++ h1 ++
            syncEvents appsDir b ++ [deployEvent b]) ∧
      ∀ e ∈ (appsLoop env appsDir st [a, b, c]).1.events,
        isCallFor appsDir c e = false) := by
  constructor
  · intro htrans
    have hmk : ∀ hist, (env.oracle hist (Event.exec mkdirCmd)).success = true :=
      fun hist => htrans hist _ rfl
    have hcpa : ∀ hist,
        (env.oracle hist (Event.copy (joinPath appsDir a) appsParent true)).success = true :=
      fun hist => htrans hist _ rfl
    have hcpb : ∀ hist,
        (env.oracle hist (Event.copy (joinPath appsDir b) appsParent true)).success = true :=
      fun hist => htrans hist _ rfl
    have hcpc : ∀ hist,
        (env.oracle hist (Event.copy (joinPath appsDir c) appsParent true)).success = true :=
      fun hist => htrans hist _ rfl
    have hdpa : ∀ hist, (env.oracle hist (deployEvent a)).success = true :=
      fun hist => htrans hist _ rfl
    have hdpb : ∀ hist, (env.oracle hist (deployEvent b)).success = true :=
      fun hist => htrans hist _ rfl
    have hdpc : ∀ hist, (env.oracle hist (deployEvent c)).success = true :=
      fun hist => htrans hist _ rfl
    obtain ⟨S1, h1, he1, hev1, hh1⟩ := appStep_trace env appsDir a st hla hmk hcpa hdpa [b, c]
    obtain ⟨S2, h2, he2, hev2, hh2⟩ := appStep_trace env appsDir b S1 hlb hmk hcpb hdpb [c]
    obtain ⟨S3, h3, he3, hev3, hh3⟩ := appStep_trace env appsDir c S2 hlc hmk hcpc hdpc []
    refine ⟨h1, h2, h3, ?_⟩
    rw [he1, he2, he3]
    show S3.events = _
    rw [hev3, hev2, hev1]
  · intro hfail hok
    have hmk : ∀ hist, (env.oracle hist (Event.exec mkdirCmd)).success = true := by
      intro hist
      refine hok hist _ rfl ?_
      intro hcon
      exact take2_ne mkdirCmd (build_deploy_script (deployPath b))
        (by rw [take2_mkdirCmd, take2_deploy]; decide) (Event.exec.inj hcon)
    have hcpa : ∀ hist,
        (env.oracle hist (Event.copy (joinPath appsDir a) appsParent true)).success = true := by
      intro hist
      refine hok hist _ rfl ?_
      intro hcon
      exact Event.noConfusion hcon
    have hcpb : ∀ hist,
        (env.oracle hist (Event.copy (joinPath appsDir b) appsParent true)).success = true := by
      intro hist
      refine hok hist _ rfl ?_
      intro hcon
      exact Event.noConfusion hcon
    have hdpa : ∀ hist, (env.oracle hist (deployEvent a)).success = true := by
      intro hist
      refine hok hist _ rfl ?_
      intro hcon
      exact hab (deployEvent_inj hcon)
    obtain ⟨S1, h1, he1, hev1, hh1⟩ := appStep_trace env appsDir a st hla hmk hcpa hdpa [b, c]
    obtain ⟨hf2, hev2⟩ := appStep_fail env appsDir b S1 hlb hmk hcpb hfail [c]
    rw [he1]
    refine ⟨hf2, ⟨h1, ?_⟩, ?_⟩
    · rw [hev2, hev1]
    · intro e he
      rw [hev2, hev1] at he
      simp only [List.mem_append, List.mem_singleton] at he
      rcases he with ((((hh | hh) | rfl) | hh) | hh) | rfl
      · exact hst e hh
      · exact callFor_syncEvents (fun h => hca h.symm) e hh
      · exact callFor_deployEvent (fun h => hca h.symm)
      · exact hook_not_call appsDir c e (hh1 e hh)
      · exact callFor_syncEvents (fun h => hcb h.symm) e hh
      · exact callFor_deployEvent (fun h => hcb h.symm)

/-- An oracle that fails exactly the deploy of the app named `beta`. -/
def c4Oracle : List Event → Event → RemoteResult := fun _ e =>
  if e = deployEvent "beta" then ⟨false, "", "deploy failed"⟩ else ⟨true, "", ""⟩

/-- Environment for the C4 witness: all apps present locally, the middle
deploy failing. -/
def c4Env : Env where
  oracle := c4Oracle
  cfg := {}
  configExists := true
  localFS := fun _ => some constTree
  findAppsDir := some "/apps"
  fs0 := fun _ => none

set_option maxHeartbeats 1600000 in
/-- Witness for C4: three concrete apps with the middle deploy failing —
the loop aborts, and no call for the third app is on the trace. -/
theorem setup_app_order_witness :
    (appsLoop c4Env "/apps" ⟨[], c4Env.fs0⟩ ["alpha", "beta", "gamma"]).2 = false ∧
    ∀ e ∈ (appsLoop c4Env "/apps" ⟨[], c4Env.fs0⟩ ["alpha", "beta", "gamma"]).1.events,
      isCallFor "/apps" "gamma" e = false := by
  have h := setup_app_order c4Env "/apps" ⟨[], c4Env.fs0⟩ "alpha" "beta" "gamma"
    (by decide) (by decide) (by decide) rfl rfl rfl
    (by intro e he; simp at he)
  have h2 := h.2
    (fun hist => by
      show (if deployEvent "beta" = deployEvent "beta"
            then (⟨false, "", "deploy failed"⟩ : RemoteResult)
            else ⟨true, "", ""⟩).success = false
      rw [if_pos rfl])
    (fun hist e hte hne => by
      show (if e = deployEvent "beta" then (⟨false, "", "deploy failed"⟩ : RemoteResult)
            else ⟨true, "", ""⟩).success = true
      rw [if_neg hne])
  exact ⟨h2.1, h2.2.2⟩

/-! ## Idempotence of the sync step on remote contents (C5) -/

/-- Splitting the apps path of one app into segments. -/
theorem pathSegs_apps (x : String) (hx : ∀ ch ∈ x.data, ch ≠ '/') (hne : x.data ≠ []) :
    pathSegs (String.mk ("/srv/vmctl/apps".data ++ '/' :: x.data)) =
      ["srv", "vmctl", "apps", x] := by
  unfold pathSegs
  rw [show (String.mk ("/srv/vmctl/apps".data ++ '/' :: x.data)).data =
      "/srv/vmctl/apps".data ++ '/' :: x.data from rfl]
  rw [splitOnChar_append, splitOnChar_no_sep '/' x.data hx]
  rw [show splitOnChar '/' "/srv/vmctl/apps".data =
      [[], ['s', 'r', 'v'], ['v', 'm', 'c', 't', 'l'], ['a', 'p', 'p', 's']] from rfl]
  simp [hne]

/-- `Path.name` of `local_apps_dir / app` is the app. -/
theorem pyBasename_join (d x : String) (hx : ∀ ch ∈ x.data, ch ≠ '/') :
    pyBasename (joinPath d x) = x := by
  unfold pyBasename joinPath
  have h : (d ++ "/" ++ x).data = d.data ++ '/' :: x.data := by
    simp [String.data_append]
  rw [h, splitOnChar_append, splitOnChar_no_sep '/' x.data hx, List.getLastD_concat]

/-- Effect of the parent `mkdir -p` on the modelled tree. -/
theorem interpExec_mkdir (fs : FSTree) :
    interpExec mkdirCmd.data fs = mkdirP ["srv", "vmctl", "apps"] fs := rfl

/-- Effect of the prior-copy `rm -rf` on the modelled tree. -/
theorem interpExec_rm (x : String) (fs : FSTree)
    (hx : ∀ ch ∈ x.data, ch ≠ '/') (hne : x.data ≠ []) :
    interpExec (rmCmd x).data fs = rmSub ["srv", "vmctl", "apps", x] fs := by
  have h : (rmCmd x).data =
      'r' :: 'm' :: ' ' :: '-' :: 'r' :: 'f' :: ' ' ::
        ("/srv/vmctl/apps".data ++ '/' :: x.data) := by
    simp [rmCmd, VM_BASE_DIR, String.data_append]
  rw [h]
  show rmSub (pathSegs (String.mk ("/srv/vmctl/apps".data ++ '/' :: x.data))) fs = _
  rw [pathSegs_apps x hx hne]

theorem pathSegs_appsParent : pathSegs appsParent = ["srv", "vmctl", "apps"] := rfl

theorem mkdirP_mem_ne_none (path : List String) (fs : FSTree) (q : List String)
    (h : q ∈ path.inits) : mkdirP path fs q ≠ none := by
  unfold mkdirP
  cases hfs : fs q with
  | some n => simp
  | none =>
    simp only []
    rw [if_pos h]
    simp

/-- The remote tree after one successful sync of app `x`: the prior copy
below `apps/x` removed, the local tree installed there. -/
theorem syncApp_fs (env : Env) (st : OrcState) (d x : String) (t : FSTree)
    (hl : env.localFS (joinPath d x) = some t)
    (hmk : ∀ hist, (env.oracle hist (Event.exec mkdirCmd)).success = true)
    (hrm : ∀ hist, (env.oracle hist (Event.exec (rmCmd x))).success = true)
    (hcp : ∀ hist,
      (env.oracle hist (Event.copy (joinPath d x) appsParent true)).success = true)
    (hx : ∀ ch ∈ x.data, ch ≠ '/') (hne : x.data ≠ []) :
    (syncApp env st d x).1.fs =
      setSub ["srv", "vmctl", "apps", x] t
        (rmSub ["srv", "vmctl", "apps", x]
          (mkdirP ["srv", "vmctl", "apps"] st.fs)) := by
  unfold syncApp sshExecOp scpOp
  rw [hl]
  simp [call, hmk, hrm, hcp, hl]
  rw [interpExec_mkdir, interpExec_rm x _ hx hne, pyBasename_join d x hx,
    pathSegs_appsParent]
  simp only [scpTree, List.cons_append, List.nil_append]
  have htgt : rmSub ["srv", "vmctl", "apps", x]
      (mkdirP ["srv", "vmctl", "apps"] st.fs) ["srv", "vmctl", "apps", x] = none := by
    simp [rmSub, dropPref_self]
  rw [htgt]

set_option maxHeartbeats 800000 in
/-- C5: running the sync step twice in a row yields the same remote
directory contents as running it once — repeated sync replaces rather
than accumulates, because the step removes the prior remote copy before
recursively copying the local directory into the remote parent. -/
theorem sync_idempotent (env : Env) (st : OrcState) (d x : String) (t : FSTree)
    (hl : env.localFS (joinPath d x) = some t)
    (hmk : ∀ hist, (env.oracle hist (Event.exec mkdirCmd)).success = true)
    (hrm : ∀ hist, (env.oracle hist (Event.exec (rmCmd x))).success = true)
    (hcp : ∀ hist,
      (env.oracle hist (Event.copy (joinPath d x) appsParent true)).success = true)
    (hx : ∀ ch ∈ x.data, ch ≠ '/') (hne : x.data ≠ []) :
    (syncApp env (syncApp env st d x).1 d x).1.fs = (syncApp env st d x).1.fs := by
  have h1 := syncApp_fs env st d x t hl hmk hrm hcp hx hne
  have h2 := syncApp_fs env (syncApp env st d x).1 d x t hl hmk hrm hcp hx hne
  rw [h2, h1]
  rw [mkdirP_noop]
  · rw [rmSub_setSub, rmSub_idem]
  · intro q hq
    have hq0 := hq
    have hini : (["srv", "vmctl", "apps"] : List String).inits =
        [[], ["srv"], ["srv", "vmctl"], ["srv", "vmctl", "apps"]] := by decide
    rw [hini] at hq
    simp at hq
    have hdp : dropPref ["srv", "vmctl", "apps", x] q = none := by
      rcases hq with rfl | rfl | rfl | rfl <;> simp [dropPref]
    simp [setSub, rmSub, hdp]
    exact mkdirP_mem_ne_none _ _ _ hq0

/-- Environment for the C5 witness: one local app, every remote call
succeeding. -/
def c5Env : Env where
  oracle := allOkOracle
  cfg := {}
  configExists := true
  localFS := fun p => if p = "/apps/app1" then some constTree else none
  findAppsDir := some "/apps"
  fs0 := fun _ => none

set_option maxHeartbeats 800000 in
/-- Witness for C5 at a concrete app and environment. -/
theorem sync_idempotent_witness :
    (syncApp c5Env (syncApp c5Env ⟨[], c5Env.fs0⟩ "/apps" "app1").1 "/apps" "app1").1.fs =
      (syncApp c5Env ⟨[], c5Env.fs0⟩ "/apps" "app1").1.fs :=
  sync_idempotent c5Env ⟨[], c5Env.fs0⟩ "/apps" "app1" constTree rfl
    (fun _ => rfl) (fun _ => rfl) (fun _ => rfl) (by decide) (by decide)

end Vmctl
